import Mathlib

/-!
Shallow embedding of the Ticket Reservation Engine of
`src/functions/src/tickets/ticket_reservation.ts`.

Firestore documents become association lists keyed by generated ids
(natural numbers from a `nextId` counter) or by `(eventId, ticketTypeId)`
string pairs.  Timestamps are integer milliseconds.  A Firestore
transaction is modelled by explicit state passing: staged writes are
sequentially applied, a normal return commits them, and a thrown
`HttpsError` aborts the transaction, leaving the state unchanged
(the `Except` error carries no state).
-/

namespace Livit

/-- Reservation status, `status ∈ {pending, completed, expired, cancelled}`. -/
inductive ReservationStatus
  | pending
  | completed
  | expired
  | cancelled
deriving DecidableEq, Repr

/-- String rendering used by the template literal in
`Reservation is ${reservation.status}`. -/
def ReservationStatus.toText : ReservationStatus → String
  | .pending => "pending"
  | .completed => "completed"
  | .expired => "expired"
  | .cancelled => "cancelled"

/-- Waitlist status, `status ∈ {waiting, notified, expired, claimed}`. -/
inductive WaitlistStatus
  | waiting
  | notified
  | expired
  | claimed
deriving DecidableEq, Repr

/-- String rendering used by `Waitlist status is ${waitlistEntry.status}`. -/
def WaitlistStatus.toText : WaitlistStatus → String
  | .waiting => "waiting"
  | .notified => "notified"
  | .expired => "expired"
  | .claimed => "claimed"

/-- Model of a `TicketInventory` document of collection `ticketInventory`. -/
structure TicketInventory where
  eventId : String
  ticketTypeId : String
  totalQuantity : Int
  availableQuantity : Int
  reservedQuantity : Int
  soldQuantity : Int
  lastUpdated : Int
deriving DecidableEq, Repr

/-- Model of a `TicketReservation` document of collection `ticketReservations`. -/
structure TicketReservation where
  userId : String
  eventId : String
  ticketTypeId : String
  quantity : Int
  reservationTime : Int
  expirationTime : Int
  status : ReservationStatus
deriving DecidableEq, Repr

/-- Model of a `TicketWaitlist` document of collection `ticketWaitlist`. -/
structure TicketWaitlist where
  userId : String
  eventId : String
  ticketTypeId : String
  quantity : Int
  requestTime : Int
  notificationSent : Bool
  notificationTime : Option Int
  expirationTime : Option Int
  status : WaitlistStatus
deriving DecidableEq, Repr

/-- One authored ticket type inside an event document
(`eventData.tickets` entries, matched by `name`). -/
structure EventTicketType where
  name : String
  totalQuantity : Int
deriving DecidableEq, Repr

/-- The part of an event document the reservation engine reads. -/
structure EventData where
  tickets : List EventTicketType
deriving DecidableEq, Repr

/-- One requested ticket line of a `TicketPurchaseRequest`. -/
structure TicketLine where
  ticketTypeId : String
  quantity : Int
deriving DecidableEq, Repr

/-- A ticket document created by `completeTicketPurchase`
(snapshot fields not observed by any claim are elided). -/
structure Ticket where
  eventId : String
  ownerId : String
  ticketType : String
  purchasedAt : Int
deriving DecidableEq, Repr

/-- Model of the `TicketReservationResult` returned by the reservation transaction. -/
structure TicketReservationResult where
  success : Bool
  reservationId : Option Nat
  expiresAt : Option Int
  waitlisted : Bool
  waitlistId : Option Nat
  error : Option String
deriving DecidableEq, Repr

/-- Error codes of the `HttpsError`s thrown by the engine. -/
inductive ErrCode
  | invalidArgument
  | notFound
  | permissionDenied
  | failedPrecondition
  | internalError
deriving DecidableEq, Repr

/-- A thrown `functions.https.HttpsError`. -/
structure HttpsError where
  code : ErrCode
  message : String
deriving DecidableEq, Repr

/-- The whole Firestore state the engine touches. -/
structure EngineState where
  events : List (String × EventData)
  inventory : List ((String × String) × TicketInventory)
  reservations : List (Nat × TicketReservation)
  waitlist : List (Nat × TicketWaitlist)
  tickets : List Ticket
  nextId : Nat
deriving DecidableEq, Repr

/-- Document lookup in an association list (first matching key). -/
def lookupKey {κ α : Type} [DecidableEq κ] (k : κ) : List (κ × α) → Option α
  | [] => none
  | (k', a) :: rest => if k' = k then some a else lookupKey k rest

/-- Model of `transaction.update`: rewrite the (first) document at key `k` by `f`. -/
def updateKey {κ α : Type} [DecidableEq κ] (k : κ) (f : α → α) : List (κ × α) → List (κ × α)
  | [] => []
  | (k', a) :: rest => if k' = k then (k', f a) :: rest else (k', a) :: updateKey k f rest

/-- Model of `transaction.set`: create or overwrite the document at key `k`. -/
def setKey {κ α : Type} [DecidableEq κ] (k : κ) (a : α) : List (κ × α) → List (κ × α)
  | [] => [(k, a)]
  | (k', a') :: rest => if k' = k then (k, a) :: rest else (k', a') :: setKey k a rest

/-- Model of `addToWaitlist`: stage a fresh `waiting` entry, returning its id. -/
def addToWaitlist (s : EngineState) (userId eventId ticketTypeId : String)
    (quantity : Int) (now : Int) : Nat × EngineState :=
  let wid := s.nextId
  let entry : TicketWaitlist :=
    { userId := userId, eventId := eventId, ticketTypeId := ticketTypeId,
      quantity := quantity, requestTime := now, notificationSent := false,
      notificationTime := none, expirationTime := none, status := .waiting }
  (wid, { s with waitlist := (wid, entry) :: s.waitlist, nextId := s.nextId + 1 })

/-- Outcome of the per-line loop of `processReservationTransaction`:
either the loop ran to the end, or an early `return results` fired. -/
inductive ReserveLinesOut
  | ok (s : EngineState)
  | stop (result : TicketReservationResult) (s : EngineState)

/-- The `for (const ticketRequest of tickets)` loop of
`processReservationTransaction`: per line, load or lazily create the
`TicketInventory`, waitlist-and-return when the quantity cannot be
satisfied, otherwise stage the inventory update and continue. -/
def reserveLines (userId eventId : String) (eventData : EventData) (now : Int) :
    EngineState → List TicketLine → ReserveLinesOut
  | s, [] => .ok s
  | s, line :: rest =>
    match lookupKey (eventId, line.ticketTypeId) s.inventory with
    | none =>
      match eventData.tickets.find? (fun t => t.name = line.ticketTypeId) with
      | none =>
        .stop { success := false, reservationId := none, expiresAt := none,
                waitlisted := false, waitlistId := none,
                error := some ("Ticket type " ++ line.ticketTypeId ++ " not found") } s
      | some ticketType =>
        let totalQuantity := ticketType.totalQuantity
        let newInventory : TicketInventory :=
          { eventId := eventId, ticketTypeId := line.ticketTypeId,
            totalQuantity := totalQuantity, availableQuantity := totalQuantity,
            reservedQuantity := 0, soldQuantity := 0, lastUpdated := now }
        let s1 : EngineState :=
          { s with inventory := setKey (eventId, line.ticketTypeId) newInventory s.inventory }
        if totalQuantity < line.quantity then
          let ws := addToWaitlist s1 userId eventId line.ticketTypeId line.quantity now
          .stop { success := false, reservationId := none, expiresAt := none,
                  waitlisted := true, waitlistId := some ws.1,
                  error := some "Not enough tickets available" } ws.2
        else
          let s2 : EngineState :=
            { s1 with
              inventory :=
                updateKey (eventId, line.ticketTypeId)
                  (fun inv => { inv with
                    availableQuantity := totalQuantity - line.quantity,
                    reservedQuantity := line.quantity,
                    lastUpdated := now }) s1.inventory }
          reserveLines userId eventId eventData now s2 rest
    | some inventory =>
      if inventory.availableQuantity < line.quantity then
        let ws := addToWaitlist s userId eventId line.ticketTypeId line.quantity now
        .stop { success := false, reservationId := none, expiresAt := none,
                waitlisted := true, waitlistId := some ws.1,
                error := some "Not enough tickets available" } ws.2
      else
        let s2 : EngineState :=
          { s with
            inventory :=
              updateKey (eventId, line.ticketTypeId)
                (fun inv => { inv with
                  availableQuantity := inventory.availableQuantity - line.quantity,
                  reservedQuantity := inventory.reservedQuantity + line.quantity,
                  lastUpdated := now }) s.inventory }
        reserveLines userId eventId eventData now s2 rest

/-- Model of `processReservationTransaction`: the whole reservation transaction.
`timestamp` is the request timestamp carried by the task payload,
`now` is the transaction's wall clock (`Timestamp.now` / `Date.now`).
The transaction commits on every path (the inner `try/catch` returns a
`results` object instead of throwing). -/
def processReservationTransaction (s : EngineState) (userId eventId : String)
    (tickets : List TicketLine) (timestamp now : Int) :
    TicketReservationResult × EngineState :=
  match lookupKey eventId s.events with
  | none =>
    ({ success := false, reservationId := none, expiresAt := none,
       waitlisted := false, waitlistId := none, error := some "Event not found" }, s)
  | some eventData =>
    match reserveLines userId eventId eventData now s tickets with
    | .stop result s' => (result, s')
    | .ok s' =>
      match tickets with
      | [] =>
        ({ success := false, reservationId := none, expiresAt := none,
           waitlisted := false, waitlistId := none,
           error := some "Failed to process reservation" }, s')
      | first :: _ =>
        let reservationExpiry := now + 10 * 60 * 1000
        let rid := s'.nextId
        let reservation : TicketReservation :=
          { userId := userId, eventId := eventId,
            ticketTypeId := first.ticketTypeId, quantity := first.quantity,
            reservationTime := timestamp, expirationTime := reservationExpiry,
            status := .pending }
        ({ success := true, reservationId := some rid,
           expiresAt := some reservationExpiry, waitlisted := false,
           waitlistId := none, error := none },
         { s' with reservations := (rid, reservation) :: s'.reservations,
                   nextId := s'.nextId + 1 })

/-- The synchronous validation of `requestTicketReservation`
(`!request.data.eventId || !request.data.tickets || request.data.tickets.length === 0`):
on success the Cloud Tasks payload is produced (the task is enqueued),
on failure an `invalid-argument` `HttpsError` is thrown first. -/
def requestTicketReservation (userId eventId : String) (tickets : List TicketLine)
    (timestamp : Int) : Except HttpsError (String × String × List TicketLine × Int) :=
  if eventId = "" ∨ tickets = [] then
    .error { code := .invalidArgument, message := "missing-params" }
  else
    .ok (userId, eventId, tickets, timestamp)

/-- The Firestore query of `processWaitlist`: `waiting` entries of the
partition, ordered by ascending `requestTime`, limited to 10. -/
def insertByRequestTime (x : Nat × TicketWaitlist) :
    List (Nat × TicketWaitlist) → List (Nat × TicketWaitlist)
  | [] => [x]
  | y :: rest =>
    if x.2.requestTime ≤ y.2.requestTime then x :: y :: rest
    else y :: insertByRequestTime x rest

/-- Insertion sort by ascending `requestTime` (the `orderBy` of the query). -/
def sortByRequestTime : List (Nat × TicketWaitlist) → List (Nat × TicketWaitlist)
  | [] => []
  | x :: rest => insertByRequestTime x (sortByRequestTime rest)

/-- Snapshot returned by the waitlist query of `processWaitlist`. -/
def waitlistQuery (s : EngineState) (eventId ticketTypeId : String) :
    List (Nat × TicketWaitlist) :=
  (sortByRequestTime (s.waitlist.filter (fun p =>
      p.2.eventId == eventId && p.2.ticketTypeId == ticketTypeId &&
      p.2.status == WaitlistStatus.waiting))).take 10

/-- The `for (const doc of waitlistDocs.docs)` loop of `processWaitlist`,
walking the query snapshot with the running `remainingQuantity`. -/
def notifyLoop (eventId ticketTypeId : String) (now : Int) :
    EngineState → List (Nat × TicketWaitlist) → Int → EngineState
  | s, [], _ => s
  | s, (wid, entry) :: rest, remaining =>
    if remaining ≤ 0 then s
    else if entry.quantity ≤ remaining then
      match lookupKey (eventId, ticketTypeId) s.inventory with
      | none => notifyLoop eventId ticketTypeId now s rest remaining
      | some inventory =>
        if inventory.availableQuantity < entry.quantity then
          notifyLoop eventId ticketTypeId now s rest remaining
        else
          let expirationTime := now + 30 * 60 * 1000
          let s1 : EngineState :=
            { s with
              inventory :=
                updateKey (eventId, ticketTypeId)
                  (fun inv => { inv with
                    availableQuantity := inventory.availableQuantity - entry.quantity,
                    lastUpdated := now }) s.inventory }
          let s2 : EngineState :=
            { s1 with
              waitlist :=
                updateKey wid
                  (fun w => { w with
                    status := .notified, notificationSent := true,
                    notificationTime := some now,
                    expirationTime := some expirationTime }) s1.waitlist }
          notifyLoop eventId ticketTypeId now s2 rest (remaining - entry.quantity)
    else s

/-- Model of `processWaitlist(transaction, eventId, ticketTypeId, availableQuantity)`. -/
def processWaitlist (s : EngineState) (eventId ticketTypeId : String)
    (availableQuantity : Int) (now : Int) : EngineState :=
  if availableQuantity ≤ 0 then s
  else notifyLoop eventId ticketTypeId now s
    (waitlistQuery s eventId ticketTypeId) availableQuantity

/-- Model of `processReservationExpiry`: scheduler-invoked expiry transaction.
No-op when the reservation is missing or not `pending`; otherwise mark
it `expired`, release the held inventory (when the record exists) and
chain into `processWaitlist` with the freed quantity. -/
def processReservationExpiry (s : EngineState) (reservationId : Nat) (now : Int) :
    EngineState :=
  match lookupKey reservationId s.reservations with
  | none => s
  | some reservation =>
    if reservation.status = .pending then
      let s1 : EngineState :=
        { s with
          reservations :=
            updateKey reservationId (fun r => { r with status := .expired }) s.reservations }
      let s2 : EngineState :=
        match lookupKey (reservation.eventId, reservation.ticketTypeId) s1.inventory with
        | none => s1
        | some inventory =>
          { s1 with
            inventory :=
              updateKey (reservation.eventId, reservation.ticketTypeId)
                (fun inv => { inv with
                  availableQuantity := inventory.availableQuantity + reservation.quantity,
                  reservedQuantity := inventory.reservedQuantity - reservation.quantity,
                  lastUpdated := now }) s1.inventory }
      processWaitlist s2 reservation.eventId reservation.ticketTypeId reservation.quantity now
    else s

/-- Result of a successful `completeTicketPurchase`. -/
structure PurchaseOk where
  ticketCount : Int
  ticketIds : List Nat
deriving DecidableEq, Repr

/-- Model of `completeTicketPurchase(userId, reservationId)`: precondition checks
in source order (existence, ownership, `pending` status, deadline), then
stage the `completed` status, the inventory move `reserved → sold` (when
the record exists), and one ticket document per unit.  A thrown error
aborts the transaction, so the error constructor carries no state. -/
def completeTicketPurchase (s : EngineState) (userId : String) (reservationId : Nat)
    (now : Int) : Except HttpsError (PurchaseOk × EngineState) :=
  match lookupKey reservationId s.reservations with
  | none => .error { code := .notFound, message := "Reservation not found" }
  | some reservation =>
    if reservation.userId ≠ userId then
      .error { code := .permissionDenied, message := "Reservation does not belong to this user" }
    else if reservation.status ≠ .pending then
      .error { code := .failedPrecondition,
               message := "Reservation is " ++ reservation.status.toText }
    else if reservation.expirationTime < now then
      .error { code := .failedPrecondition, message := "Reservation has expired" }
    else
      let s1 : EngineState :=
        { s with
          reservations :=
            updateKey reservationId (fun r => { r with status := .completed }) s.reservations }
      let s2 : EngineState :=
        match lookupKey (reservation.eventId, reservation.ticketTypeId) s1.inventory with
        | none => s1
        | some inventory =>
          { s1 with
            inventory :=
              updateKey (reservation.eventId, reservation.ticketTypeId)
                (fun inv => { inv with
                  reservedQuantity := inventory.reservedQuantity - reservation.quantity,
                  soldQuantity := inventory.soldQuantity + reservation.quantity,
                  lastUpdated := now }) s1.inventory }
      match lookupKey reservation.eventId s2.events with
      | none => .error { code := .notFound, message := "Event not found" }
      | some eventData =>
        match eventData.tickets.find? (fun t => t.name = reservation.ticketTypeId) with
        | none => .error { code := .notFound, message := "Ticket type not found" }
        | some _ =>
          let n := reservation.quantity.toNat
          let ids := (List.range n).map (fun i => s2.nextId + i)
          let newTickets : List Ticket := ids.map (fun _ =>
            { eventId := reservation.eventId, ownerId := userId,
              ticketType := reservation.ticketTypeId, purchasedAt := now })
          .ok ({ ticketCount := reservation.quantity, ticketIds := ids },
               { s2 with tickets := s2.tickets ++ newTickets, nextId := s2.nextId + n })

/-- The state after a `completeTicketPurchase` call: a thrown error
aborts the transaction, committing nothing. -/
def completePurchaseState (s : EngineState) (userId : String) (reservationId : Nat)
    (now : Int) : EngineState :=
  match completeTicketPurchase s userId reservationId now with
  | .ok out => out.2
  | .error _ => s

/-- Model of `processWaitlistNotificationExpiry`: scheduler-invoked claim-window
expiry.  No-op when the entry is missing or not `notified`; otherwise
mark it `expired`, return the earmarked quantity to `availableQuantity`
(when the record exists) and chain into `processWaitlist`. -/
def processWaitlistNotificationExpiry (s : EngineState) (waitlistId : Nat)
    (now : Int) : EngineState :=
  match lookupKey waitlistId s.waitlist with
  | none => s
  | some entry =>
    if entry.status = .notified then
      let s1 : EngineState :=
        { s with
          waitlist :=
            updateKey waitlistId (fun w => { w with status := .expired }) s.waitlist }
      match lookupKey (entry.eventId, entry.ticketTypeId) s1.inventory with
      | some inventory =>
        let s2 : EngineState :=
          { s1 with
            inventory :=
              updateKey (entry.eventId, entry.ticketTypeId)
                (fun inv => { inv with
                  availableQuantity := inventory.availableQuantity + entry.quantity,
                  lastUpdated := now }) s1.inventory }
        processWaitlist s2 entry.eventId entry.ticketTypeId entry.quantity now
      | none => processWaitlist s1 entry.eventId entry.ticketTypeId entry.quantity now
    else s

/-- Result of a successful `claimWaitlistedTickets`. -/
structure ClaimOk where
  reservationId : Nat
  expiresAt : Int
deriving DecidableEq, Repr

/-- Model of `claimWaitlistedTickets(userId, waitlistId)`.  The lapsed-window path
throws inside the transaction, so its staged writes are aborted and the
state is unchanged; on success the entry becomes `claimed`, the earmarked
quantity is added to `reservedQuantity` (when the record exists) and a
fresh `pending` reservation with a 10-minute expiry is created. -/
def claimWaitlistedTickets (s : EngineState) (userId : String) (waitlistId : Nat)
    (now : Int) : Except HttpsError (ClaimOk × EngineState) :=
  match lookupKey waitlistId s.waitlist with
  | none => .error { code := .notFound, message := "Waitlist entry not found" }
  | some entry =>
    if entry.userId ≠ userId then
      .error { code := .permissionDenied, message := "Waitlist entry does not belong to this user" }
    else if entry.status ≠ .notified then
      .error { code := .failedPrecondition,
               message := "Waitlist status is " ++ entry.status.toText }
    else
      match entry.expirationTime with
      | none => .error { code := .failedPrecondition, message := "Waitlist notification has expired" }
      | some expirationTime =>
        if expirationTime < now then
          .error { code := .failedPrecondition, message := "Waitlist notification has expired" }
        else
          let reservationExpiry := now + 10 * 60 * 1000
          let s1 : EngineState :=
            { s with
              waitlist :=
                updateKey waitlistId (fun w => { w with status := .claimed }) s.waitlist }
          let s2 : EngineState :=
            match lookupKey (entry.eventId, entry.ticketTypeId) s1.inventory with
            | none => s1
            | some _ =>
              { s1 with
                inventory :=
                  updateKey (entry.eventId, entry.ticketTypeId)
                    (fun inv => { inv with
                      reservedQuantity := inv.reservedQuantity + entry.quantity,
                      lastUpdated := now }) s1.inventory }
          let rid := s2.nextId
          let reservation : TicketReservation :=
            { userId := entry.userId, eventId := entry.eventId,
              ticketTypeId := entry.ticketTypeId, quantity := entry.quantity,
              reservationTime := now, expirationTime := reservationExpiry,
              status := .pending }
          .ok ({ reservationId := rid, expiresAt := reservationExpiry },
               { s2 with reservations := (rid, reservation) :: s2.reservations,
                         nextId := s2.nextId + 1 })

/-- The state after a `claimWaitlistedTickets` call (errors abort). -/
def claimWaitlistedState (s : EngineState) (userId : String) (waitlistId : Nat)
    (now : Int) : EngineState :=
  match claimWaitlistedTickets s userId waitlistId now with
  | .ok out => out.2
  | .error _ => s

/-! ### Association list lemmas -/

theorem lookupKey_updateKey_self {κ α : Type} [DecidableEq κ] (k : κ) (f : α → α) :
    ∀ l : List (κ × α), lookupKey k (updateKey k f l) = (lookupKey k l).map f
  | [] => rfl
  | (k', a) :: rest => by
    by_cases h : k' = k
    · simp [lookupKey, updateKey, h]
    · simp [lookupKey, updateKey, h, lookupKey_updateKey_self k f rest]

theorem lookupKey_updateKey_ne {κ α : Type} [DecidableEq κ] {k k' : κ} (f : α → α)
    (hne : k' ≠ k) : ∀ l : List (κ × α), lookupKey k' (updateKey k f l) = lookupKey k' l
  | [] => rfl
  | (k'', a) :: rest => by
    by_cases h : k'' = k
    · subst h
      simp [lookupKey, updateKey, Ne.symm hne]
    · simp only [updateKey, if_neg h, lookupKey]
      by_cases h2 : k'' = k'
      · simp [h2]
      · simp [h2, lookupKey_updateKey_ne f hne rest]

theorem lookupKey_setKey_self {κ α : Type} [DecidableEq κ] (k : κ) (a : α) :
    ∀ l : List (κ × α), lookupKey k (setKey k a l) = some a
  | [] => by simp [setKey, lookupKey]
  | (k', a') :: rest => by
    by_cases h : k' = k
    · simp [setKey, lookupKey, h]
    · simp [setKey, lookupKey, h, lookupKey_setKey_self k a rest]

theorem lookupKey_setKey_ne {κ α : Type} [DecidableEq κ] {k k' : κ} (a : α)
    (hne : k' ≠ k) : ∀ l : List (κ × α), lookupKey k' (setKey k a l) = lookupKey k' l
  | [] => by simp [setKey, lookupKey, Ne.symm hne]
  | (k'', a') :: rest => by
    by_cases h : k'' = k
    · subst h
      simp [setKey, lookupKey, Ne.symm hne]
    · simp only [setKey, if_neg h, lookupKey]
      by_cases h2 : k'' = k'
      · simp [h2]
      · simp [h2, lookupKey_setKey_ne a hne rest]

theorem updateKey_keys {κ α : Type} [DecidableEq κ] (k : κ) (f : α → α) :
    ∀ l : List (κ × α), (updateKey k f l).map Prod.fst = l.map Prod.fst
  | [] => rfl
  | (k', a) :: rest => by
    by_cases h : k' = k
    · simp [updateKey, h]
    · simp [updateKey, h, updateKey_keys k f rest]

theorem lookupKey_eq_of_mem_of_nodup {κ α : Type} [DecidableEq κ] {k : κ} {a : α} :
    ∀ {l : List (κ × α)}, (k, a) ∈ l → (l.map Prod.fst).Nodup →
      lookupKey k l = some a
  | [], h, _ => by simp at h
  | (k', a') :: rest, h, hnd => by
    have hnd' : k' ∉ rest.map Prod.fst ∧ (rest.map Prod.fst).Nodup := by
      simpa [List.nodup_cons] using hnd
    rcases List.mem_cons.mp h with h1 | h1
    · cases h1
      simp [lookupKey]
    · have hk : k' ≠ k := by
        rintro rfl
        exact hnd'.1 (by simpa using List.mem_map_of_mem Prod.fst h1)
      simp only [lookupKey, if_neg hk]
      exact lookupKey_eq_of_mem_of_nodup h1 hnd'.2

/-! ### Frame lemmas for waitlist processing -/

theorem notifyLoop_frame (e t : String) (now : Int) :
    ∀ (snap : List (Nat × TicketWaitlist)) (s : EngineState) (rem : Int),
      (notifyLoop e t now s snap rem).reservations = s.reservations ∧
      (notifyLoop e t now s snap rem).events = s.events ∧
      (notifyLoop e t now s snap rem).tickets = s.tickets ∧
      (notifyLoop e t now s snap rem).nextId = s.nextId
  | [], s, rem => ⟨rfl, rfl, rfl, rfl⟩
  | (wid, entry) :: rest, s, rem => by
    unfold notifyLoop
    by_cases h1 : rem ≤ 0
    · simp [h1]
    · simp only [if_neg h1]
      by_cases h2 : entry.quantity ≤ rem
      · simp only [if_pos h2]
        rcases hinv : lookupKey (e, t) s.inventory with _ | inventory
        · exact notifyLoop_frame e t now rest s rem
        · by_cases h3 : inventory.availableQuantity < entry.quantity
          · simp only [if_pos h3]
            exact notifyLoop_frame e t now rest s rem
          · simp only [if_neg h3]
            exact notifyLoop_frame e t now rest _ _
      · simp [h2]

theorem processWaitlist_frame (s : EngineState) (e t : String) (freed now : Int) :
    (processWaitlist s e t freed now).reservations = s.reservations ∧
    (processWaitlist s e t freed now).events = s.events ∧
    (processWaitlist s e t freed now).tickets = s.tickets ∧
    (processWaitlist s e t freed now).nextId = s.nextId := by
  unfold processWaitlist
  by_cases h : freed ≤ 0
  · simp [h]
  · simp only [if_neg h]
    exact notifyLoop_frame e t now _ s freed

/-! ### C2 — reserve against an existing InventoryRecord -/

/-- C2: against an existing InventoryRecord, a single-line reserve of
quantity q waitlists the requester (fresh `waiting` entry, waitlisted
result, no Reservation and no inventory change) when
`availableQuantity < q`, and otherwise moves q from available to
reserved and creates a `pending` Reservation expiring 10 minutes from
now, returning its id. -/
theorem reserve_existing_record_spec (s : EngineState) (userId eventId t : String)
    (q timestamp now : Int) (ev : EventData) (inv : TicketInventory)
    (hev : lookupKey eventId s.events = some ev)
    (hinv : lookupKey (eventId, t) s.inventory = some inv) :
    (inv.availableQuantity < q →
      processReservationTransaction s userId eventId
          [{ ticketTypeId := t, quantity := q }] timestamp now =
        ({ success := false, reservationId := none, expiresAt := none,
           waitlisted := true, waitlistId := some s.nextId,
           error := some "Not enough tickets available" },
         { s with
           waitlist := (s.nextId,
             { userId := userId, eventId := eventId, ticketTypeId := t,
               quantity := q, requestTime := now, notificationSent := false,
               notificationTime := none, expirationTime := none,
               status := .waiting }) :: s.waitlist,
           nextId := s.nextId + 1 })) ∧
    (¬ inv.availableQuantity < q →
      processReservationTransaction s userId eventId
          [{ ticketTypeId := t, quantity := q }] timestamp now =
        ({ success := true, reservationId := some s.nextId,
           expiresAt := some (now + 10 * 60 * 1000), waitlisted := false,
           waitlistId := none, error := none },
         { s with
           inventory :=
             updateKey (eventId, t)
               (fun i => { i with
                 availableQuantity := inv.availableQuantity - q,
                 reservedQuantity := inv.reservedQuantity + q,
                 lastUpdated := now }) s.inventory,
           reservations := (s.nextId,
             { userId := userId, eventId := eventId, ticketTypeId := t,
               quantity := q, reservationTime := timestamp,
               expirationTime := now + 10 * 60 * 1000,
               status := .pending }) :: s.reservations,
           nextId := s.nextId + 1 })) := by
  constructor
  · intro h
    simp [processReservationTransaction, reserveLines, addToWaitlist, hev, hinv, h]
  · intro h
    simp [processReservationTransaction, reserveLines, addToWaitlist, hev, hinv, h]

/-- Initial state of Scenario A: one event with ticket type "ga",
an existing inventory record with total = 10, nothing reserved. -/
def scenarioAState0 : EngineState :=
  { events := [("e", { tickets := [{ name := "ga", totalQuantity := 10 }] })],
    inventory := [(("e", "ga"),
      { eventId := "e", ticketTypeId := "ga", totalQuantity := 10,
        availableQuantity := 10, reservedQuantity := 0, soldQuantity := 0,
        lastUpdated := 0 })],
    reservations := [], waitlist := [], tickets := [], nextId := 0 }

/-- Scenario A after reserve(5): available = 5, reserved = 5, one
pending reservation. -/
def scenarioAState1 : EngineState :=
  { events := [("e", { tickets := [{ name := "ga", totalQuantity := 10 }] })],
    inventory := [(("e", "ga"),
      { eventId := "e", ticketTypeId := "ga", totalQuantity := 10,
        availableQuantity := 5, reservedQuantity := 5, soldQuantity := 0,
        lastUpdated := 100 })],
    reservations := [(0,
      { userId := "alice", eventId := "e", ticketTypeId := "ga", quantity := 5,
        reservationTime := 100, expirationTime := 600100, status := .pending })],
    waitlist := [], tickets := [], nextId := 1 }

/-- Scenario A after the waitlisted reserve(6): inventory unchanged, one
waiting entry added. -/
def scenarioAState2 : EngineState :=
  { scenarioAState1 with
    waitlist := [(1,
      { userId := "bob", eventId := "e", ticketTypeId := "ga", quantity := 6,
        requestTime := 200, notificationSent := false, notificationTime := none,
        expirationTime := none, status := .waiting })],
    nextId := 2 }

/-- C2 witness: Scenario A — with total = 10, reserve(5) succeeds leaving
available = 5 and reserved = 5, and a subsequent reserve(6) is waitlisted. -/
theorem reserve_existing_record_spec_witness :
    processReservationTransaction scenarioAState0 "alice" "e"
        [{ ticketTypeId := "ga", quantity := 5 }] 100 100 =
      ({ success := true, reservationId := some 0, expiresAt := some 600100,
         waitlisted := false, waitlistId := none, error := none },
       scenarioAState1) ∧
    processReservationTransaction scenarioAState1 "bob" "e"
        [{ ticketTypeId := "ga", quantity := 6 }] 200 200 =
      ({ success := false, reservationId := none, expiresAt := none,
         waitlisted := true, waitlistId := some 1,
         error := some "Not enough tickets available" },
       scenarioAState2) := by
  have h1 := (reserve_existing_record_spec scenarioAState0 "alice" "e" "ga" 5 100 100
      { tickets := [{ name := "ga", totalQuantity := 10 }] }
      { eventId := "e", ticketTypeId := "ga", totalQuantity := 10,
        availableQuantity := 10, reservedQuantity := 0, soldQuantity := 0,
        lastUpdated := 0 }
      (by decide) (by decide)).2 (by decide)
  have h2 := (reserve_existing_record_spec scenarioAState1 "bob" "e" "ga" 6 200 200
      { tickets := [{ name := "ga", totalQuantity := 10 }] }
      { eventId := "e", ticketTypeId := "ga", totalQuantity := 10,
        availableQuantity := 5, reservedQuantity := 5, soldQuantity := 0,
        lastUpdated := 100 }
      (by decide) (by decide)).1 (by decide)
  exact ⟨h1.trans (by decide), h2.trans (by decide)⟩

/-! ### C5 — idempotence of reservation expiry -/

/-- Helper: the expiry handler is a no-op when the reservation is absent. -/
theorem expiry_noop_of_missing (s : EngineState) (reservationId : Nat) (now : Int)
    (h : lookupKey reservationId s.reservations = none) :
    processReservationExpiry s reservationId now = s := by
  simp [processReservationExpiry, h]

/-- Helper: the expiry handler is a no-op when the reservation is not pending. -/
theorem expiry_noop_of_resolved (s : EngineState) (reservationId : Nat) (now : Int)
    (r : TicketReservation) (h : lookupKey reservationId s.reservations = some r)
    (hs : r.status ≠ .pending) :
    processReservationExpiry s reservationId now = s := by
  simp [processReservationExpiry, h, hs]

/-- Helper: after the expiry handler runs, the stored reservations are
those of the intermediate state: a pending reservation is now `expired`
(waitlist processing never touches reservations). -/
theorem expiry_reservations_of_pending (s : EngineState) (reservationId : Nat)
    (now : Int) (r : TicketReservation)
    (h : lookupKey reservationId s.reservations = some r)
    (hp : r.status = .pending) :
    (processReservationExpiry s reservationId now).reservations =
      updateKey reservationId (fun x => { x with status := ReservationStatus.expired })
        s.reservations := by
  unfold processReservationExpiry
  rw [h]
  simp only [hp, if_true]
  rw [(processWaitlist_frame _ _ _ _ _).1]
  split <;> rfl

/-- C5: expireReservation is idempotent: a missing or non-pending
reservation is a silent no-op, and a second invocation after a first
expiry changes nothing further. -/
theorem expireReservation_idempotent (s : EngineState) (reservationId : Nat)
    (now now' : Int) :
    (lookupKey reservationId s.reservations = none →
      processReservationExpiry s reservationId now = s) ∧
    (∀ r, lookupKey reservationId s.reservations = some r → r.status ≠ .pending →
      processReservationExpiry s reservationId now = s) ∧
    processReservationExpiry (processReservationExpiry s reservationId now)
        reservationId now' =
      processReservationExpiry s reservationId now := by
  refine ⟨expiry_noop_of_missing s reservationId now,
    fun r h hs => expiry_noop_of_resolved s reservationId now r h hs, ?_⟩
  rcases h : lookupKey reservationId s.reservations with _ | r
  · rw [expiry_noop_of_missing s reservationId now h,
      expiry_noop_of_missing s reservationId now' h]
  · by_cases hp : r.status = ReservationStatus.pending
    · have hlook : lookupKey reservationId
          (processReservationExpiry s reservationId now).reservations =
          some { r with status := ReservationStatus.expired } := by
        rw [expiry_reservations_of_pending s reservationId now r h hp,
          lookupKey_updateKey_self, h]
        rfl
      exact expiry_noop_of_resolved _ reservationId now' _ hlook (by simp)
    · rw [expiry_noop_of_resolved s reservationId now r h hp,
        expiry_noop_of_resolved s reservationId now' r h hp]

/-- Concrete state for the C5 witness: one pending reservation holding
5 of 10 tickets. -/
def scenarioC5State : EngineState :=
  { events := [("e", { tickets := [{ name := "ga", totalQuantity := 10 }] })],
    inventory := [(("e", "ga"),
      { eventId := "e", ticketTypeId := "ga", totalQuantity := 10,
        availableQuantity := 5, reservedQuantity := 5, soldQuantity := 0,
        lastUpdated := 100 })],
    reservations := [(0,
      { userId := "alice", eventId := "e", ticketTypeId := "ga", quantity := 5,
        reservationTime := 100, expirationTime := 600100, status := .pending })],
    waitlist := [], tickets := [], nextId := 1 }

/-- C5 witness: expiring a pending reservation once and then again —
the second run changes nothing; and the no-op clauses at a state where
the reservation is already expired. -/
theorem expireReservation_idempotent_witness :
    processReservationExpiry
        (processReservationExpiry scenarioC5State 0 700000) 0 800000 =
      processReservationExpiry scenarioC5State 0 700000 :=
  (expireReservation_idempotent scenarioC5State 0 700000 800000).2.2

/-! ### C4 — purchase round trip -/

/-- C4: a successful completeTicketPurchase on a pending, unexpired
reservation of quantity q returns a ticket count of exactly q, creates
exactly q ticket documents, and moves exactly q from reservedQuantity to
soldQuantity on the inventory record. -/
theorem completePurchase_roundtrip (s : EngineState) (userId : String)
    (reservationId : Nat) (now : Int) (r : TicketReservation) (inv : TicketInventory)
    (ev : EventData) (tt : EventTicketType)
    (hres : lookupKey reservationId s.reservations = some r)
    (hu : r.userId = userId) (hst : r.status = .pending)
    (hexp : ¬ r.expirationTime < now)
    (hinv : lookupKey (r.eventId, r.ticketTypeId) s.inventory = some inv)
    (hev : lookupKey r.eventId s.events = some ev)
    (htt : ev.tickets.find? (fun x => x.name = r.ticketTypeId) = some tt)
    (hq : 0 ≤ r.quantity) :
    completeTicketPurchase s userId reservationId now =
      .ok ({ ticketCount := r.quantity,
             ticketIds := (List.range r.quantity.toNat).map (fun i => s.nextId + i) },
           { s with
             reservations := updateKey reservationId
               (fun x => { x with status := ReservationStatus.completed }) s.reservations,
             inventory := updateKey (r.eventId, r.ticketTypeId)
               (fun i => { i with
                 reservedQuantity := inv.reservedQuantity - r.quantity,
                 soldQuantity := inv.soldQuantity + r.quantity,
                 lastUpdated := now }) s.inventory,
             tickets := s.tickets ++
               ((List.range r.quantity.toNat).map (fun i => s.nextId + i)).map (fun _ =>
               { eventId := r.eventId, ownerId := userId,
                 ticketType := r.ticketTypeId, purchasedAt := now }),
             nextId := s.nextId + r.quantity.toNat }) ∧
    (((List.range r.quantity.toNat).map (fun i => s.nextId + i)).length : Int)
        = r.quantity ∧
    ((completePurchaseState s userId reservationId now).tickets.length : Int)
        = s.tickets.length + r.quantity ∧
    lookupKey (r.eventId, r.ticketTypeId)
        (completePurchaseState s userId reservationId now).inventory =
      some { inv with
        reservedQuantity := inv.reservedQuantity - r.quantity,
        soldQuantity := inv.soldQuantity + r.quantity,
        lastUpdated := now } := by
  have hmain : completeTicketPurchase s userId reservationId now =
      .ok ({ ticketCount := r.quantity,
             ticketIds := (List.range r.quantity.toNat).map (fun i => s.nextId + i) },
           { s with
             reservations := updateKey reservationId
               (fun x => { x with status := ReservationStatus.completed }) s.reservations,
             inventory := updateKey (r.eventId, r.ticketTypeId)
               (fun i => { i with
                 reservedQuantity := inv.reservedQuantity - r.quantity,
                 soldQuantity := inv.soldQuantity + r.quantity,
                 lastUpdated := now }) s.inventory,
             tickets := s.tickets ++
               ((List.range r.quantity.toNat).map (fun i => s.nextId + i)).map (fun _ =>
               { eventId := r.eventId, ownerId := userId,
                 ticketType := r.ticketTypeId, purchasedAt := now }),
             nextId := s.nextId + r.quantity.toNat }) := by
    simp [completeTicketPurchase, hres, hu, hst, hexp, hinv, hev, htt,
      Function.comp, List.map_const', List.length_range]
  have hstate : completePurchaseState s userId reservationId now =
      { s with
        reservations := updateKey reservationId
          (fun x => { x with status := ReservationStatus.completed }) s.reservations,
        inventory := updateKey (r.eventId, r.ticketTypeId)
          (fun i => { i with
            reservedQuantity := inv.reservedQuantity - r.quantity,
            soldQuantity := inv.soldQuantity + r.quantity,
            lastUpdated := now }) s.inventory,
        tickets := s.tickets ++
               ((List.range r.quantity.toNat).map (fun i => s.nextId + i)).map (fun _ =>
          { eventId := r.eventId, ownerId := userId,
            ticketType := r.ticketTypeId, purchasedAt := now }),
        nextId := s.nextId + r.quantity.toNat } := by
    simp [completePurchaseState, hmain]
  refine ⟨hmain, ?_, ?_, ?_⟩
  · simp [Int.toNat_of_nonneg hq]
  · rw [hstate]
    simp [Int.toNat_of_nonneg hq]
  · rw [hstate]
    simp only []
    rw [lookupKey_updateKey_self, hinv]
    rfl

/-- Concrete state for the C4 witness: a pending reservation of 5 of 10
tickets, unexpired at the call time. -/
def scenarioC4State : EngineState :=
  { events := [("e", { tickets := [{ name := "ga", totalQuantity := 10 }] })],
    inventory := [(("e", "ga"),
      { eventId := "e", ticketTypeId := "ga", totalQuantity := 10,
        availableQuantity := 5, reservedQuantity := 5, soldQuantity := 0,
        lastUpdated := 100 })],
    reservations := [(0,
      { userId := "alice", eventId := "e", ticketTypeId := "ga", quantity := 5,
        reservationTime := 100, expirationTime := 600100, status := .pending })],
    waitlist := [], tickets := [], nextId := 1 }

/-- C4 witness: completing the concrete pending reservation of 5 yields
ticket count 5, five ticket documents, sold 0 → 5 and reserved 5 → 0. -/
theorem completePurchase_roundtrip_witness :
    completeTicketPurchase scenarioC4State "alice" 0 300000 =
      .ok ({ ticketCount := 5, ticketIds := [1, 2, 3, 4, 5] },
           { events := [("e", { tickets := [{ name := "ga", totalQuantity := 10 }] })],
             inventory := [(("e", "ga"),
               { eventId := "e", ticketTypeId := "ga", totalQuantity := 10,
                 availableQuantity := 5, reservedQuantity := 0, soldQuantity := 5,
                 lastUpdated := 300000 })],
             reservations := [(0,
               { userId := "alice", eventId := "e", ticketTypeId := "ga",
                 quantity := 5, reservationTime := 100, expirationTime := 600100,
                 status := .completed })],
             waitlist := [],
             tickets := [{ eventId := "e", ownerId := "alice", ticketType := "ga",
                           purchasedAt := 300000 },
                         { eventId := "e", ownerId := "alice", ticketType := "ga",
                           purchasedAt := 300000 },
                         { eventId := "e", ownerId := "alice", ticketType := "ga",
                           purchasedAt := 300000 },
                         { eventId := "e", ownerId := "alice", ticketType := "ga",
                           purchasedAt := 300000 },
                         { eventId := "e", ownerId := "alice", ticketType := "ga",
                           purchasedAt := 300000 }],
             nextId := 6 }) := by
  have h := (completePurchase_roundtrip scenarioC4State "alice" 0 300000
      { userId := "alice", eventId := "e", ticketTypeId := "ga", quantity := 5,
        reservationTime := 100, expirationTime := 600100, status := .pending }
      { eventId := "e", ticketTypeId := "ga", totalQuantity := 10,
        availableQuantity := 5, reservedQuantity := 5, soldQuantity := 0,
        lastUpdated := 100 }
      { tickets := [{ name := "ga", totalQuantity := 10 }] }
      { name := "ga", totalQuantity := 10 }
      (by decide) (by decide) (by decide) (by decide) (by decide) (by decide)
      (by decide) (by decide)).1
  rw [h]
  rfl

/-! ### C7 — expiry releases inventory, then purchase is rejected -/

/-- C7: once the expiry handler has processed a pending reservation of
quantity q (with no waiting waitlist entries to absorb the freed
capacity), the inventory shows availableQuantity incremented and
reservedQuantity decremented by q, and a completeTicketPurchase on it
one millisecond after the deadline returns FailedPrecondition reporting
the expired state. -/
theorem expiry_release_then_purchase_rejected (s : EngineState) (userId : String)
    (reservationId : Nat) (nowE : Int) (r : TicketReservation) (inv : TicketInventory)
    (hres : lookupKey reservationId s.reservations = some r)
    (hp : r.status = .pending) (hu : r.userId = userId)
    (hinv : lookupKey (r.eventId, r.ticketTypeId) s.inventory = some inv)
    (hwl : s.waitlist.filter (fun p =>
        p.2.eventId == r.eventId && p.2.ticketTypeId == r.ticketTypeId &&
        p.2.status == WaitlistStatus.waiting) = []) :
    lookupKey (r.eventId, r.ticketTypeId)
        (processReservationExpiry s reservationId nowE).inventory =
      some { inv with
        availableQuantity := inv.availableQuantity + r.quantity,
        reservedQuantity := inv.reservedQuantity - r.quantity,
        lastUpdated := nowE } ∧
    completeTicketPurchase (processReservationExpiry s reservationId nowE)
        userId reservationId (r.expirationTime + 1) =
      .error { code := .failedPrecondition, message := "Reservation is expired" } := by
  have hs' : processReservationExpiry s reservationId nowE =
      { s with
        reservations := updateKey reservationId
          (fun x => { x with status := ReservationStatus.expired }) s.reservations,
        inventory := updateKey (r.eventId, r.ticketTypeId)
          (fun i => { i with
            availableQuantity := inv.availableQuantity + r.quantity,
            reservedQuantity := inv.reservedQuantity - r.quantity,
            lastUpdated := nowE }) s.inventory } := by
    unfold processReservationExpiry
    rw [hres]
    simp only [hp, if_true]
    simp only [hinv]
    unfold processWaitlist waitlistQuery
    simp only [hwl]
    by_cases hfq : r.quantity ≤ 0
    · simp [hfq, notifyLoop, sortByRequestTime]
    · simp [hfq, notifyLoop, sortByRequestTime]
  constructor
  · rw [hs']
    simp only []
    rw [lookupKey_updateKey_self, hinv]
    rfl
  · have hlook : lookupKey reservationId
        (processReservationExpiry s reservationId nowE).reservations =
        some { r with status := ReservationStatus.expired } := by
      rw [hs']
      simp only []
      rw [lookupKey_updateKey_self, hres]
      rfl
    simp [completeTicketPurchase, hlook, hu, ReservationStatus.toText]

/-- Concrete state for the C7 witness: a pending reservation of 5 with
deadline 600100, held against inventory available 5 / reserved 5. -/
def scenarioBState : EngineState :=
  { events := [("e", { tickets := [{ name := "ga", totalQuantity := 10 }] })],
    inventory := [(("e", "ga"),
      { eventId := "e", ticketTypeId := "ga", totalQuantity := 10,
        availableQuantity := 5, reservedQuantity := 5, soldQuantity := 0,
        lastUpdated := 100 })],
    reservations := [(0,
      { userId := "alice", eventId := "e", ticketTypeId := "ga", quantity := 5,
        reservationTime := 100, expirationTime := 600100, status := .pending })],
    waitlist := [], tickets := [], nextId := 1 }

/-- C7 witness: Scenario B at concrete values — expiry at the deadline
releases 5 back to available, and the purchase attempt one millisecond
later is rejected as expired. -/
theorem expiry_release_then_purchase_rejected_witness :
    lookupKey ("e", "ga")
        (processReservationExpiry scenarioBState 0 600100).inventory =
      some { eventId := "e", ticketTypeId := "ga", totalQuantity := 10,
             availableQuantity := 10, reservedQuantity := 0, soldQuantity := 0,
             lastUpdated := 600100 } ∧
    completeTicketPurchase (processReservationExpiry scenarioBState 0 600100)
        "alice" 0 600101 =
      .error { code := .failedPrecondition, message := "Reservation is expired" } := by
  have h := expiry_release_then_purchase_rejected scenarioBState "alice" 0 600100
      { userId := "alice", eventId := "e", ticketTypeId := "ga", quantity := 5,
        reservationTime := 100, expirationTime := 600100, status := .pending }
      { eventId := "e", ticketTypeId := "ga", totalQuantity := 10,
        availableQuantity := 5, reservedQuantity := 5, soldQuantity := 0,
        lastUpdated := 100 }
      (by decide) (by decide) (by decide) (by decide) (by decide)
  exact ⟨h.1.trans (by decide), h.2⟩

/-! ### C6 — strict FIFO fairness of waitlist processing -/

theorem insertByRequestTime_perm (x : Nat × TicketWaitlist) :
    ∀ l, (insertByRequestTime x l).Perm (x :: l)
  | [] => List.Perm.refl _
  | y :: rest => by
    unfold insertByRequestTime
    by_cases h : x.2.requestTime ≤ y.2.requestTime
    · simp [h]
    · simp only [if_neg h]
      exact ((insertByRequestTime_perm x rest).cons y).trans (List.Perm.swap x y rest)

theorem sortByRequestTime_perm : ∀ l, (sortByRequestTime l).Perm l
  | [] => List.Perm.refl _
  | x :: rest => (insertByRequestTime_perm x (sortByRequestTime rest)).trans
      ((sortByRequestTime_perm rest).cons x)

/-- C6: `processWaitlist` walks `waiting` entries in ascending
requestTime and stops at the first entry whose quantity exceeds the
remaining freed capacity: with three entries at t1 < t2 < t3 and freed
capacity C satisfying q1 ≤ C < q1 + q2, the first entry is notified
while the second stays `waiting` and the third is never notified, even
when q3 would fit in the leftover capacity. -/
theorem processWaitlist_fifo (s : EngineState) (e t : String) (capacity now : Int)
    (i1 i2 i3 : Nat) (w1 w2 w3 : TicketWaitlist) (inv : TicketInventory)
    (hnd : (s.waitlist.map Prod.fst).Nodup)
    (hfil : s.waitlist.filter (fun p =>
        p.2.eventId == e && p.2.ticketTypeId == t &&
        p.2.status == WaitlistStatus.waiting) = [(i1, w1), (i2, w2), (i3, w3)])
    (ht12 : w1.requestTime < w2.requestTime)
    (ht23 : w2.requestTime < w3.requestTime)
    (hq1pos : 0 < w1.quantity)
    (hq1C : w1.quantity ≤ capacity)
    (hC12 : capacity < w1.quantity + w2.quantity)
    (hinv : lookupKey (e, t) s.inventory = some inv)
    (havail : ¬ inv.availableQuantity < w1.quantity) :
    lookupKey i1 (processWaitlist s e t capacity now).waitlist =
      some { w1 with
        status := .notified,
        notificationSent := true,
        notificationTime := some now,
        expirationTime := some (now + 30 * 60 * 1000) } ∧
    lookupKey i2 (processWaitlist s e t capacity now).waitlist = some w2 ∧
    lookupKey i3 (processWaitlist s e t capacity now).waitlist = some w3 ∧
    w2.status = .waiting ∧ w3.status = .waiting := by
  have hmemf1 : (i1, w1) ∈ s.waitlist.filter (fun p =>
      p.2.eventId == e && p.2.ticketTypeId == t &&
      p.2.status == WaitlistStatus.waiting) := by
    rw [hfil]
    simp
  have hmemf2 : (i2, w2) ∈ s.waitlist.filter (fun p =>
      p.2.eventId == e && p.2.ticketTypeId == t &&
      p.2.status == WaitlistStatus.waiting) := by
    rw [hfil]
    simp
  have hmemf3 : (i3, w3) ∈ s.waitlist.filter (fun p =>
      p.2.eventId == e && p.2.ticketTypeId == t &&
      p.2.status == WaitlistStatus.waiting) := by
    rw [hfil]
    simp
  have hmem1 : (i1, w1) ∈ s.waitlist := List.mem_of_mem_filter hmemf1
  have hmem2 : (i2, w2) ∈ s.waitlist := List.mem_of_mem_filter hmemf2
  have hmem3 : (i3, w3) ∈ s.waitlist := List.mem_of_mem_filter hmemf3
  have hw2p := List.of_mem_filter hmemf2
  have hw3p := List.of_mem_filter hmemf3
  simp only [Bool.and_eq_true, beq_iff_eq] at hw2p hw3p
  have hkeysnd : ([i1, i2, i3] : List Nat).Nodup := by
    have hsub : ((s.waitlist.filter (fun p =>
        p.2.eventId == e && p.2.ticketTypeId == t &&
        p.2.status == WaitlistStatus.waiting)).map Prod.fst).Sublist
          (s.waitlist.map Prod.fst) :=
      (List.filter_sublist _).map Prod.fst
    have := hnd.sublist hsub
    rw [hfil] at this
    simpa using this
  have hne12 : i1 ≠ i2 := by
    simp only [List.nodup_cons, List.mem_cons] at hkeysnd
    exact fun hcontra => hkeysnd.1 (Or.inl hcontra)
  have hne13 : i1 ≠ i3 := by
    simp only [List.nodup_cons, List.mem_cons] at hkeysnd
    exact fun hcontra => hkeysnd.1 (Or.inr (Or.inl hcontra))
  have hlook1 : lookupKey i1 s.waitlist = some w1 :=
    lookupKey_eq_of_mem_of_nodup hmem1 hnd
  have hlook2 : lookupKey i2 s.waitlist = some w2 :=
    lookupKey_eq_of_mem_of_nodup hmem2 hnd
  have hlook3 : lookupKey i3 s.waitlist = some w3 :=
    lookupKey_eq_of_mem_of_nodup hmem3 hnd
  have hsq : waitlistQuery s e t = [(i1, w1), (i2, w2), (i3, w3)] := by
    unfold waitlistQuery
    rw [hfil]
    simp [sortByRequestTime, insertByRequestTime, ht12.le, ht23.le]
  have hloop : processWaitlist s e t capacity now =
      { s with
        inventory := updateKey (e, t)
          (fun i => { i with
            availableQuantity := inv.availableQuantity - w1.quantity,
            lastUpdated := now }) s.inventory,
        waitlist := updateKey i1
          (fun w => { w with
            status := .notified,
            notificationSent := true,
            notificationTime := some now,
            expirationTime := some (now + 30 * 60 * 1000) }) s.waitlist } := by
    unfold processWaitlist
    rw [if_neg (by omega : ¬ capacity ≤ 0), hsq]
    unfold notifyLoop
    rw [if_neg (by omega : ¬ capacity ≤ 0), if_pos hq1C]
    simp only [hinv]
    rw [if_neg havail]
    unfold notifyLoop
    by_cases hrem : capacity - w1.quantity ≤ 0
    · simp only [if_pos hrem]
    · rw [if_neg hrem, if_neg (by omega : ¬ w2.quantity ≤ capacity - w1.quantity)]
  rw [hloop]
  simp only []
  rw [lookupKey_updateKey_self, hlook1,
    lookupKey_updateKey_ne _ (Ne.symm hne12) _, hlook2,
    lookupKey_updateKey_ne _ (Ne.symm hne13) _, hlook3]
  exact ⟨rfl, rfl, rfl, hw2p.2, hw3p.2⟩

/-- Concrete state for the C6 witness: three waiting entries with
quantities 2, 2, 1 at times 10 < 20 < 30, inventory available 5. -/
def scenarioC6State : EngineState :=
  { events := [("e", { tickets := [{ name := "ga", totalQuantity := 10 }] })],
    inventory := [(("e", "ga"),
      { eventId := "e", ticketTypeId := "ga", totalQuantity := 10,
        availableQuantity := 5, reservedQuantity := 5, soldQuantity := 0,
        lastUpdated := 0 })],
    reservations := [],
    waitlist := [(1,
      { userId := "u1", eventId := "e", ticketTypeId := "ga", quantity := 2,
        requestTime := 10, notificationSent := false, notificationTime := none,
        expirationTime := none, status := .waiting }),
      (2,
      { userId := "u2", eventId := "e", ticketTypeId := "ga", quantity := 2,
        requestTime := 20, notificationSent := false, notificationTime := none,
        expirationTime := none, status := .waiting }),
      (3,
      { userId := "u3", eventId := "e", ticketTypeId := "ga", quantity := 1,
        requestTime := 30, notificationSent := false, notificationTime := none,
        expirationTime := none, status := .waiting })],
    tickets := [], nextId := 4 }

/-- C6 witness: freed capacity 3 with quantities (2, 2, 1): entry 1 is
notified, entry 2 stays waiting, and entry 3 stays waiting even though
its quantity 1 would fit in the leftover capacity 1. -/
theorem processWaitlist_fifo_witness :
    lookupKey 1 (processWaitlist scenarioC6State "e" "ga" 3 1000).waitlist =
      some { userId := "u1", eventId := "e", ticketTypeId := "ga", quantity := 2,
             requestTime := 10, notificationSent := true,
             notificationTime := some 1000, expirationTime := some 1801000,
             status := .notified } ∧
    lookupKey 2 (processWaitlist scenarioC6State "e" "ga" 3 1000).waitlist =
      some { userId := "u2", eventId := "e", ticketTypeId := "ga", quantity := 2,
             requestTime := 20, notificationSent := false, notificationTime := none,
             expirationTime := none, status := .waiting } ∧
    lookupKey 3 (processWaitlist scenarioC6State "e" "ga" 3 1000).waitlist =
      some { userId := "u3", eventId := "e", ticketTypeId := "ga", quantity := 1,
             requestTime := 30, notificationSent := false, notificationTime := none,
             expirationTime := none, status := .waiting } := by
  have h := processWaitlist_fifo scenarioC6State "e" "ga" 3 1000 1 2 3
      { userId := "u1", eventId := "e", ticketTypeId := "ga", quantity := 2,
        requestTime := 10, notificationSent := false, notificationTime := none,
        expirationTime := none, status := .waiting }
      { userId := "u2", eventId := "e", ticketTypeId := "ga", quantity := 2,
        requestTime := 20, notificationSent := false, notificationTime := none,
        expirationTime := none, status := .waiting }
      { userId := "u3", eventId := "e", ticketTypeId := "ga", quantity := 1,
        requestTime := 30, notificationSent := false, notificationTime := none,
        expirationTime := none, status := .waiting }
      { eventId := "e", ticketTypeId := "ga", totalQuantity := 10,
        availableQuantity := 5, reservedQuantity := 5, soldQuantity := 0,
        lastUpdated := 0 }
      (by decide) (by decide) (by decide) (by decide) (by decide) (by decide)
      (by decide) (by decide) (by decide)
  exact ⟨h.1, h.2.1, h.2.2.1⟩

/-! ### Counter bookkeeping for the inventory invariant -/

/-- Sum of a per-document contribution over an association list. -/
def sumBy {κ α : Type} (f : α → Int) : List (κ × α) → Int
  | [] => 0
  | (_, a) :: rest => f a + sumBy f rest

/-- Contribution of a reservation to the pending total of partition (e, t). -/
def pendingContrib (e t : String) (r : TicketReservation) : Int :=
  if r.eventId = e ∧ r.ticketTypeId = t ∧ r.status = .pending then r.quantity else 0

/-- Contribution of a reservation to the completed total of partition (e, t). -/
def completedContrib (e t : String) (r : TicketReservation) : Int :=
  if r.eventId = e ∧ r.ticketTypeId = t ∧ r.status = .completed then r.quantity else 0

/-- Contribution of a waitlist entry to the earmarked (notified) total of
partition (e, t). -/
def notifiedContrib (e t : String) (w : TicketWaitlist) : Int :=
  if w.eventId = e ∧ w.ticketTypeId = t ∧ w.status = .notified then w.quantity else 0

/-- Total quantity currently held by pending reservations of (e, t). -/
def pendingSum (e t : String) (l : List (Nat × TicketReservation)) : Int :=
  sumBy (pendingContrib e t) l

/-- Total quantity sold through completed reservations of (e, t). -/
def completedSum (e t : String) (l : List (Nat × TicketReservation)) : Int :=
  sumBy (completedContrib e t) l

/-- Total quantity earmarked by notified waitlist entries of (e, t). -/
def notifiedSum (e t : String) (l : List (Nat × TicketWaitlist)) : Int :=
  sumBy (notifiedContrib e t) l

theorem sumBy_updateKey {κ α : Type} [DecidableEq κ] (f : α → Int) (k : κ) (g : α → α) :
    ∀ (l : List (κ × α)) (a : α), lookupKey k l = some a →
      sumBy f (updateKey k g l) = sumBy f l - f a + f (g a)
  | [], a, h => by simp [lookupKey] at h
  | (k', b) :: rest, a, h => by
    by_cases hk : k' = k
    · rw [lookupKey] at h
      rw [if_pos hk] at h
      injection h with h2
      subst h2
      simp only [updateKey, if_pos hk, sumBy]
      ring
    · rw [lookupKey] at h
      rw [if_neg hk] at h
      simp only [updateKey, if_neg hk, sumBy]
      rw [sumBy_updateKey f k g rest a h]
      ring

theorem sumBy_nonneg {κ α : Type} (f : α → Int) :
    ∀ l : List (κ × α), (∀ p ∈ l, 0 ≤ f p.2) → 0 ≤ sumBy f l
  | [], _ => le_refl 0
  | (k, a) :: rest, h => by
    have h1 : 0 ≤ f a := h (k, a) (List.mem_cons_self _ _)
    have h2 : 0 ≤ sumBy f rest := sumBy_nonneg f rest (fun p hp => h p (List.mem_cons_of_mem _ hp))
    simp only [sumBy]
    omega

theorem le_sumBy_of_lookup {κ α : Type} [DecidableEq κ] (f : α → Int) (k : κ) :
    ∀ (l : List (κ × α)) (a : α), lookupKey k l = some a →
      (∀ p ∈ l, 0 ≤ f p.2) → f a ≤ sumBy f l
  | [], a, h, _ => by simp [lookupKey] at h
  | (k', b) :: rest, a, h, hpos => by
    by_cases hk : k' = k
    · rw [lookupKey] at h
      rw [if_pos hk] at h
      injection h with h2
      subst h2
      have : 0 ≤ sumBy f rest :=
        sumBy_nonneg f rest (fun p hp => hpos p (List.mem_cons_of_mem _ hp))
      simp only [sumBy]
      omega
    · rw [lookupKey] at h
      rw [if_neg hk] at h
      have h1 : 0 ≤ f b := hpos (k', b) (List.mem_cons_self _ _)
      have h2 := le_sumBy_of_lookup f k rest a h
        (fun p hp => hpos p (List.mem_cons_of_mem _ hp))
      simp only [sumBy]
      omega

theorem lookupKey_mem {κ α : Type} [DecidableEq κ] (k : κ) :
    ∀ (l : List (κ × α)) (a : α), lookupKey k l = some a → (k, a) ∈ l
  | [], a, h => by simp [lookupKey] at h
  | (k', b) :: rest, a, h => by
    by_cases hk : k' = k
    · rw [lookupKey] at h
      rw [if_pos hk] at h
      injection h with h2
      subst h2 hk
      exact List.mem_cons_self _ _
    · rw [lookupKey] at h
      rw [if_neg hk] at h
      exact List.mem_cons_of_mem _ (lookupKey_mem k rest a h)

theorem mem_updateKey {κ α : Type} [DecidableEq κ] (k : κ) (g : α → α) :
    ∀ (l : List (κ × α)) (p : κ × α), p ∈ updateKey k g l →
      p ∈ l ∨ ∃ a, lookupKey k l = some a ∧ p = (k, g a)
  | [], p, h => by simp [updateKey] at h
  | (k', b) :: rest, p, h => by
    by_cases hk : k' = k
    · subst hk
      simp only [updateKey, if_pos rfl] at h
      rcases List.mem_cons.mp h with h1 | h1
      · exact Or.inr ⟨b, by simp [lookupKey], h1⟩
      · exact Or.inl (List.mem_cons_of_mem _ h1)
    · simp only [updateKey, if_neg hk] at h
      rcases List.mem_cons.mp h with h1 | h1
      · exact Or.inl (h1 ▸ List.mem_cons_self _ _)
      · rcases mem_updateKey k g rest p h1 with h2 | ⟨a, ha, hp⟩
        · exact Or.inl (List.mem_cons_of_mem _ h2)
        · exact Or.inr ⟨a, by simp [lookupKey, hk, ha], hp⟩

/-- The inductive invariant of the reservation engine, tying the
inventory counters of every partition to the reservations and waitlist
entries that reference it. -/
structure Invariant (s : EngineState) : Prop where
  resPos : ∀ p ∈ s.reservations, 0 < p.2.quantity
  wlPos : ∀ p ∈ s.waitlist, 0 < p.2.quantity
  wlFresh : ∀ p ∈ s.waitlist, p.1 < s.nextId
  wlNodup : (s.waitlist.map Prod.fst).Nodup
  eventsPos : ∀ p ∈ s.events, ∀ tt ∈ p.2.tickets, 0 ≤ tt.totalQuantity
  invGood : ∀ e t inv, lookupKey (e, t) s.inventory = some inv →
    0 ≤ inv.availableQuantity ∧
    pendingSum e t s.reservations ≤ inv.reservedQuantity ∧
    inv.soldQuantity = completedSum e t s.reservations ∧
    inv.availableQuantity + inv.reservedQuantity + inv.soldQuantity +
      notifiedSum e t s.waitlist = inv.totalQuantity
  invAbsent : ∀ e t, lookupKey (e, t) s.inventory = none →
    pendingSum e t s.reservations = 0 ∧ completedSum e t s.reservations = 0 ∧
    notifiedSum e t s.waitlist = 0

/-- Reserved-counter slack: partition k has an inventory record whose
reserved counter exceeds the pending total by at least c. -/
def ResSlack (s : EngineState) (k : String × String) (c : Int) : Prop :=
  ∃ inv, lookupKey k s.inventory = some inv ∧
    pendingSum k.1 k.2 s.reservations + c ≤ inv.reservedQuantity

/-! ### Contribution computation lemmas -/

theorem pendingContrib_of_status (e t : String) (r : TicketReservation)
    (h : r.status ≠ .pending) : pendingContrib e t r = 0 := by
  simp [pendingContrib, h]

theorem pendingContrib_of_key (e t : String) (r : TicketReservation)
    (h : ¬ (r.eventId = e ∧ r.ticketTypeId = t)) : pendingContrib e t r = 0 := by
  unfold pendingContrib
  rw [if_neg]
  rintro ⟨h1, h2, _⟩
  exact h ⟨h1, h2⟩

theorem pendingContrib_self (e t : String) (r : TicketReservation)
    (he : r.eventId = e) (ht : r.ticketTypeId = t) (hs : r.status = .pending) :
    pendingContrib e t r = r.quantity := by
  simp [pendingContrib, he, ht, hs]

theorem completedContrib_of_status (e t : String) (r : TicketReservation)
    (h : r.status ≠ .completed) : completedContrib e t r = 0 := by
  simp [completedContrib, h]

theorem completedContrib_of_key (e t : String) (r : TicketReservation)
    (h : ¬ (r.eventId = e ∧ r.ticketTypeId = t)) : completedContrib e t r = 0 := by
  unfold completedContrib
  rw [if_neg]
  rintro ⟨h1, h2, _⟩
  exact h ⟨h1, h2⟩

theorem completedContrib_self (e t : String) (r : TicketReservation)
    (he : r.eventId = e) (ht : r.ticketTypeId = t) (hs : r.status = .completed) :
    completedContrib e t r = r.quantity := by
  simp [completedContrib, he, ht, hs]

theorem notifiedContrib_of_status (e t : String) (w : TicketWaitlist)
    (h : w.status ≠ .notified) : notifiedContrib e t w = 0 := by
  simp [notifiedContrib, h]

theorem notifiedContrib_of_key (e t : String) (w : TicketWaitlist)
    (h : ¬ (w.eventId = e ∧ w.ticketTypeId = t)) : notifiedContrib e t w = 0 := by
  unfold notifiedContrib
  rw [if_neg]
  rintro ⟨h1, h2, _⟩
  exact h ⟨h1, h2⟩

theorem notifiedContrib_self (e t : String) (w : TicketWaitlist)
    (he : w.eventId = e) (ht : w.ticketTypeId = t) (hs : w.status = .notified) :
    notifiedContrib e t w = w.quantity := by
  simp [notifiedContrib, he, ht, hs]

/-! ### Invariant preservation: waitlist insertion -/

theorem invariant_addToWaitlist (s : EngineState) (u e t : String) (q now : Int)
    (hI : Invariant s) (hq : 0 < q) :
    Invariant (addToWaitlist s u e t q now).2 := by
  simp only [addToWaitlist]
  refine ⟨?_, ?_, ?_, ?_, ?_, ?_, ?_⟩
  · exact hI.resPos
  · intro p hp
    rcases List.mem_cons.mp hp with h | h
    · rw [h]
      exact hq
    · exact hI.wlPos p h
  · intro p hp
    rcases List.mem_cons.mp hp with h | h
    · rw [h]
      exact Nat.lt_succ_self _
    · exact Nat.lt_succ_of_lt (hI.wlFresh p h)
  · simp only [List.map_cons, List.nodup_cons]
    refine ⟨?_, hI.wlNodup⟩
    intro hmem
    rcases List.mem_map.mp hmem with ⟨p, hp, hfst⟩
    have := hI.wlFresh p hp
    omega
  · exact hI.eventsPos
  · intro e' t' inv hlk
    obtain ⟨h1, h2, h3, h4⟩ := hI.invGood e' t' inv hlk
    refine ⟨h1, h2, h3, ?_⟩
    have hc : notifiedContrib e' t'
        { userId := u, eventId := e, ticketTypeId := t, quantity := q,
          requestTime := now, notificationSent := false, notificationTime := none,
          expirationTime := none, status := .waiting } = 0 :=
      notifiedContrib_of_status e' t' _ (by simp)
    simp only [notifiedSum, sumBy, hc]
    rw [← notifiedSum]
    omega
  · intro e' t' hlk
    obtain ⟨h1, h2, h3⟩ := hI.invAbsent e' t' hlk
    refine ⟨h1, h2, ?_⟩
    have hc : notifiedContrib e' t'
        { userId := u, eventId := e, ticketTypeId := t, quantity := q,
          requestTime := now, notificationSent := false, notificationTime := none,
          expirationTime := none, status := .waiting } = 0 :=
      notifiedContrib_of_status e' t' _ (by simp)
    simp only [notifiedSum, sumBy, hc]
    rw [← notifiedSum]
    omega

/-! ### Specialized sum-update lemmas -/

theorem pendingSum_setStatus (e t : String) (rid : Nat) (st : ReservationStatus)
    (l : List (Nat × TicketReservation)) (r : TicketReservation)
    (h : lookupKey rid l = some r) :
    pendingSum e t (updateKey rid (fun x => { x with status := st }) l) =
      pendingSum e t l - pendingContrib e t r +
        pendingContrib e t { r with status := st } := by
  simpa [pendingSum] using
    sumBy_updateKey (pendingContrib e t) rid (fun x => { x with status := st }) l r h

theorem completedSum_setStatus (e t : String) (rid : Nat) (st : ReservationStatus)
    (l : List (Nat × TicketReservation)) (r : TicketReservation)
    (h : lookupKey rid l = some r) :
    completedSum e t (updateKey rid (fun x => { x with status := st }) l) =
      completedSum e t l - completedContrib e t r +
        completedContrib e t { r with status := st } := by
  simpa [completedSum] using
    sumBy_updateKey (completedContrib e t) rid (fun x => { x with status := st }) l r h

theorem notifiedSum_setStatus (e t : String) (wid : Nat) (st : WaitlistStatus)
    (l : List (Nat × TicketWaitlist)) (w : TicketWaitlist)
    (h : lookupKey wid l = some w) :
    notifiedSum e t (updateKey wid (fun x => { x with status := st }) l) =
      notifiedSum e t l - notifiedContrib e t w +
        notifiedContrib e t { w with status := st } := by
  simpa [notifiedSum] using
    sumBy_updateKey (notifiedContrib e t) wid (fun x => { x with status := st }) l w h

theorem notifiedSum_notify (e t : String) (wid : Nat) (now expT : Int)
    (l : List (Nat × TicketWaitlist)) (w : TicketWaitlist)
    (h : lookupKey wid l = some w) :
    notifiedSum e t (updateKey wid
        (fun x => { x with
          status := .notified, notificationSent := true,
          notificationTime := some now, expirationTime := some expT }) l) =
      notifiedSum e t l - notifiedContrib e t w +
        notifiedContrib e t { w with
          status := .notified, notificationSent := true,
          notificationTime := some now, expirationTime := some expT } := by
  simpa [notifiedSum] using
    sumBy_updateKey (notifiedContrib e t) wid
      (fun x => { x with
        status := .notified, notificationSent := true,
        notificationTime := some now, expirationTime := some expT }) l w h

/-- Every pending-contribution is nonnegative when all quantities are positive. -/
theorem pendingContrib_nonneg (e t : String) (r : TicketReservation)
    (h : 0 < r.quantity) : 0 ≤ pendingContrib e t r := by
  unfold pendingContrib
  split
  · exact le_of_lt h
  · exact le_refl 0

theorem completedContrib_nonneg (e t : String) (r : TicketReservation)
    (h : 0 < r.quantity) : 0 ≤ completedContrib e t r := by
  unfold completedContrib
  split
  · exact le_of_lt h
  · exact le_refl 0

theorem notifiedContrib_nonneg (e t : String) (w : TicketWaitlist)
    (h : 0 < w.quantity) : 0 ≤ notifiedContrib e t w := by
  unfold notifiedContrib
  split
  · exact le_of_lt h
  · exact le_refl 0

/-- Under the invariant, a pending reservation implies its partition has
an inventory record. -/
theorem pending_has_inventory (s : EngineState) (rid : Nat) (r : TicketReservation)
    (hI : Invariant s) (hres : lookupKey rid s.reservations = some r)
    (hst : r.status = .pending) :
    ∃ inv, lookupKey (r.eventId, r.ticketTypeId) s.inventory = some inv := by
  rcases hinv : lookupKey (r.eventId, r.ticketTypeId) s.inventory with _ | inv
  · exfalso
    have hple : pendingContrib r.eventId r.ticketTypeId r ≤
        pendingSum r.eventId r.ticketTypeId s.reservations :=
      le_sumBy_of_lookup _ rid s.reservations r hres
        (fun p hp => pendingContrib_nonneg _ _ _ (hI.resPos p hp))
    rw [pendingContrib_self _ _ _ rfl rfl hst] at hple
    have hz := (hI.invAbsent r.eventId r.ticketTypeId hinv).1
    have hqr : 0 < r.quantity := hI.resPos _ (lookupKey_mem rid s.reservations r hres)
    unfold pendingSum at hz
    unfold pendingSum at hple
    omega
  · exact ⟨inv, rfl⟩

/-- Under the invariant, a notified waitlist entry implies its partition
has an inventory record. -/
theorem notified_has_inventory (s : EngineState) (wid : Nat) (w : TicketWaitlist)
    (hI : Invariant s) (hw : lookupKey wid s.waitlist = some w)
    (hst : w.status = .notified) :
    ∃ inv, lookupKey (w.eventId, w.ticketTypeId) s.inventory = some inv := by
  rcases hinv : lookupKey (w.eventId, w.ticketTypeId) s.inventory with _ | inv
  · exfalso
    have hple : notifiedContrib w.eventId w.ticketTypeId w ≤
        notifiedSum w.eventId w.ticketTypeId s.waitlist :=
      le_sumBy_of_lookup _ wid s.waitlist w hw
        (fun p hp => notifiedContrib_nonneg _ _ _ (hI.wlPos p hp))
    rw [notifiedContrib_self _ _ _ rfl rfl hst] at hple
    have hz := (hI.invAbsent w.eventId w.ticketTypeId hinv).2.2
    have hqw : 0 < w.quantity := hI.wlPos _ (lookupKey_mem wid s.waitlist w hw)
    unfold notifiedSum at hz
    unfold notifiedSum at hple
    omega
  · exact ⟨inv, rfl⟩

/-! ### Invariant preservation: purchase completion -/

theorem invariant_completePurchase (s : EngineState) (u : String) (rid : Nat)
    (now : Int) (hI : Invariant s) :
    Invariant (completePurchaseState s u rid now) := by
  unfold completePurchaseState completeTicketPurchase
  rcases hres : lookupKey rid s.reservations with _ | r
  · exact hI
  · by_cases hu : r.userId ≠ u
    · simp only [if_pos hu]
      exact hI
    · simp only [if_neg hu]
      by_cases hst : r.status ≠ ReservationStatus.pending
      · simp only [if_pos hst]
        exact hI
      · simp only [if_neg hst]
        by_cases hexp : r.expirationTime < now
        · simp only [if_pos hexp]
          exact hI
        · simp only [if_neg hexp]
          push_neg at hst
          have hqr : 0 < r.quantity :=
            hI.resPos _ (lookupKey_mem rid s.reservations r hres)
          obtain ⟨inv, hinv⟩ := pending_has_inventory s rid r hI hres hst
          simp only [hinv]
          rcases hev : lookupKey r.eventId s.events with _ | ev
          · exact hI
          · rcases htt : ev.tickets.find? (fun x => x.name = r.ticketTypeId)
              with _ | tt
            · simp only [htt]
              exact hI
            · simp only [htt]
              refine ⟨?_, ?_, ?_, ?_, ?_, ?_, ?_⟩
              · intro p hp
                rcases mem_updateKey _ _ _ p hp with h | ⟨a, ha, hpa⟩
                · exact hI.resPos p h
                · rw [ha] at hres
                  injection hres with h2
                  subst h2 hpa
                  exact hqr
              · exact hI.wlPos
              · intro p hp
                exact Nat.lt_of_lt_of_le (hI.wlFresh p hp) (Nat.le_add_right _ _)
              · exact hI.wlNodup
              · exact hI.eventsPos
              · intro e' t' inv' hlk
                by_cases hkey : (e', t') = (r.eventId, r.ticketTypeId)
                · rw [hkey, lookupKey_updateKey_self, hinv] at hlk
                  injection hlk with h2
                  obtain ⟨g1, g2, g3, g4⟩ :=
                    hI.invGood r.eventId r.ticketTypeId inv hinv
                  obtain ⟨he', ht'⟩ := Prod.ext_iff.mp hkey
                  subst he' ht'
                  have hp2 := pendingSum_setStatus r.eventId r.ticketTypeId rid
                    ReservationStatus.completed s.reservations r hres
                  have hc2 := completedSum_setStatus r.eventId r.ticketTypeId rid
                    ReservationStatus.completed s.reservations r hres
                  rw [pendingContrib_self r.eventId r.ticketTypeId r rfl rfl hst,
                    pendingContrib_of_status r.eventId r.ticketTypeId _ (by simp)] at hp2
                  rw [completedContrib_of_status r.eventId r.ticketTypeId r (by simp [hst]),
                    completedContrib_self r.eventId r.ticketTypeId
                      { r with status := ReservationStatus.completed } rfl rfl rfl] at hc2
                  subst h2
                  refine ⟨by simpa using g1, ?_, ?_, ?_⟩
                  · rw [hp2]
                    simp only []
                    omega
                  · rw [hc2]
                    simp only []
                    omega
                  · simp only []
                    omega
                · rw [lookupKey_updateKey_ne _ hkey _] at hlk
                  obtain ⟨g1, g2, g3, g4⟩ := hI.invGood e' t' inv' hlk
                  have hkey' : ¬ (r.eventId = e' ∧ r.ticketTypeId = t') := by
                    intro hcontra
                    exact hkey (by rw [hcontra.1, hcontra.2])
                  have hp2 := pendingSum_setStatus e' t' rid
                    ReservationStatus.completed s.reservations r hres
                  have hc2 := completedSum_setStatus e' t' rid
                    ReservationStatus.completed s.reservations r hres
                  rw [pendingContrib_of_key e' t' r hkey',
                    pendingContrib_of_key e' t'
                      { r with status := ReservationStatus.completed } hkey'] at hp2
                  rw [completedContrib_of_key e' t' r hkey',
                    completedContrib_of_key e' t'
                      { r with status := ReservationStatus.completed } hkey'] at hc2
                  refine ⟨g1, ?_, ?_, g4⟩
                  · rw [hp2]
                    omega
                  · rw [hc2]
                    omega
              · intro e' t' hlk
                by_cases hkey : (e', t') = (r.eventId, r.ticketTypeId)
                · rw [hkey, lookupKey_updateKey_self, hinv] at hlk
                  exact Option.noConfusion hlk
                · rw [lookupKey_updateKey_ne _ hkey _] at hlk
                  obtain ⟨g1, g2, g3⟩ := hI.invAbsent e' t' hlk
                  have hkey' : ¬ (r.eventId = e' ∧ r.ticketTypeId = t') := by
                    intro hcontra
                    exact hkey (by rw [hcontra.1, hcontra.2])
                  have hp2 := pendingSum_setStatus e' t' rid
                    ReservationStatus.completed s.reservations r hres
                  have hc2 := completedSum_setStatus e' t' rid
                    ReservationStatus.completed s.reservations r hres
                  rw [pendingContrib_of_key e' t' r hkey',
                    pendingContrib_of_key e' t'
                      { r with status := ReservationStatus.completed } hkey'] at hp2
                  rw [completedContrib_of_key e' t' r hkey',
                    completedContrib_of_key e' t'
                      { r with status := ReservationStatus.completed } hkey'] at hc2
                  refine ⟨?_, ?_, g3⟩
                  · rw [hp2]
                    omega
                  · rw [hc2]
                    omega

/-! ### Invariant preservation: waitlist notification loop -/

theorem waitlistQuery_mem (s : EngineState) (e t : String)
    (p : Nat × TicketWaitlist) (hp : p ∈ waitlistQuery s e t) :
    p ∈ s.waitlist ∧ p.2.status = .waiting ∧ p.2.eventId = e ∧
      p.2.ticketTypeId = t := by
  unfold waitlistQuery at hp
  have h1 := List.take_subset 10 _ hp
  have h2 := (sortByRequestTime_perm _).mem_iff.mp h1
  have h3 := List.mem_of_mem_filter h2
  have h4 := List.of_mem_filter h2
  simp only [Bool.and_eq_true, beq_iff_eq] at h4
  exact ⟨h3, h4.2, h4.1.1, h4.1.2⟩

theorem waitlistQuery_nodup_keys (s : EngineState) (e t : String)
    (hnd : (s.waitlist.map Prod.fst).Nodup) :
    ((waitlistQuery s e t).map Prod.fst).Nodup := by
  unfold waitlistQuery
  have hfil : ((s.waitlist.filter (fun p =>
      p.2.eventId == e && p.2.ticketTypeId == t &&
      p.2.status == WaitlistStatus.waiting)).map Prod.fst).Nodup :=
    hnd.sublist ((List.filter_sublist _).map Prod.fst)
  have hsort : ((sortByRequestTime (s.waitlist.filter (fun p =>
      p.2.eventId == e && p.2.ticketTypeId == t &&
      p.2.status == WaitlistStatus.waiting))).map Prod.fst).Nodup :=
    (((sortByRequestTime_perm _).map Prod.fst).nodup_iff).mpr hfil
  exact hsort.sublist ((List.take_sublist 10 _).map Prod.fst)

theorem invariant_notifyLoop (e t : String) (now : Int) :
    ∀ (snap : List (Nat × TicketWaitlist)) (s : EngineState) (rem : Int),
      Invariant s →
      (snap.map Prod.fst).Nodup →
      (∀ p ∈ snap, lookupKey p.1 s.waitlist = some p.2 ∧ p.2.status = .waiting ∧
        p.2.eventId = e ∧ p.2.ticketTypeId = t) →
      Invariant (notifyLoop e t now s snap rem)
  | [], s, rem, hI, _, _ => hI
  | (wid, w) :: rest, s, rem, hI, hnd, hsnap => by
    unfold notifyLoop
    by_cases h1 : rem ≤ 0
    · simpa [h1] using hI
    · simp only [if_neg h1]
      by_cases h2 : w.quantity ≤ rem
      · simp only [if_pos h2]
        have hsnaptail : ∀ p ∈ rest, lookupKey p.1 s.waitlist = some p.2 ∧
            p.2.status = .waiting ∧ p.2.eventId = e ∧ p.2.ticketTypeId = t :=
          fun p hp => hsnap p (List.mem_cons_of_mem _ hp)
        have hndtail : (rest.map Prod.fst).Nodup := by
          simp only [List.map_cons, List.nodup_cons] at hnd
          exact hnd.2
        rcases hinv : lookupKey (e, t) s.inventory with _ | inventory
        · exact invariant_notifyLoop e t now rest s rem hI hndtail hsnaptail
        · by_cases h3 : inventory.availableQuantity < w.quantity
          · simp only [if_pos h3]
            exact invariant_notifyLoop e t now rest s rem hI hndtail hsnaptail
          · simp only [if_neg h3]
            obtain ⟨hw, hwst, hwe, hwt⟩ := hsnap (wid, w) (List.mem_cons_self _ _)
            replace hw : lookupKey wid s.waitlist = some w := hw
            replace hwst : w.status = WaitlistStatus.waiting := hwst
            replace hwe : w.eventId = e := hwe
            replace hwt : w.ticketTypeId = t := hwt
            have hq : 0 < w.quantity := hI.wlPos _ (lookupKey_mem wid s.waitlist w hw)
            have hwidmem : wid ∉ rest.map Prod.fst := by
              simp only [List.map_cons, List.nodup_cons] at hnd
              exact hnd.1
            -- the updated state
            have hI2 : Invariant
                { s with
                  inventory := updateKey (e, t)
                    (fun inv => { inv with
                      availableQuantity := inventory.availableQuantity - w.quantity,
                      lastUpdated := now }) s.inventory,
                  waitlist := updateKey wid
                    (fun x => { x with
                      status := .notified, notificationSent := true,
                      notificationTime := some now,
                      expirationTime := some (now + 30 * 60 * 1000) }) s.waitlist } := by
              have hn2 := notifiedSum_notify e t wid now (now + 30 * 60 * 1000)
                s.waitlist w hw
              rw [notifiedContrib_of_status e t w (by simp [hwst])] at hn2
              have hnafter : notifiedContrib e t { w with
                  status := WaitlistStatus.notified, notificationSent := true,
                  notificationTime := some now,
                  expirationTime := some (now + 30 * 60 * 1000) } = w.quantity :=
                notifiedContrib_self _ _ _ hwe hwt rfl
              rw [hnafter] at hn2
              refine ⟨hI.resPos, ?_, ?_, ?_, hI.eventsPos, ?_, ?_⟩
              · intro p hp
                rcases mem_updateKey _ _ _ p hp with h | ⟨a, ha, hpa⟩
                · exact hI.wlPos p h
                · rw [ha] at hw
                  injection hw with h4
                  subst h4 hpa
                  exact hq
              · intro p hp
                rcases mem_updateKey _ _ _ p hp with h | ⟨a, ha, hpa⟩
                · exact hI.wlFresh p h
                · subst hpa
                  exact hI.wlFresh (wid, a) (lookupKey_mem wid s.waitlist a ha)
              · rw [updateKey_keys]
                exact hI.wlNodup
              · intro e' t' inv' hlk
                by_cases hkey : (e', t') = (e, t)
                · rw [hkey, lookupKey_updateKey_self, hinv] at hlk
                  injection hlk with h4
                  obtain ⟨g1, g2, g3, g4⟩ := hI.invGood e t inventory hinv
                  injection hkey with he' ht'
                  subst he' ht' h4
                  refine ⟨by simpa using (by omega : (0 : Int) ≤
                    inventory.availableQuantity - w.quantity), g2, g3, ?_⟩
                  · rw [hn2]
                    simp only []
                    omega
                · rw [lookupKey_updateKey_ne _ hkey _] at hlk
                  obtain ⟨g1, g2, g3, g4⟩ := hI.invGood e' t' inv' hlk
                  have hkey' : ¬ (w.eventId = e' ∧ w.ticketTypeId = t') := by
                    intro hcontra
                    exact hkey (by rw [← hcontra.1, ← hcontra.2, hwe, hwt])
                  have hn3 := notifiedSum_notify e' t' wid now (now + 30 * 60 * 1000)
                    s.waitlist w hw
                  rw [notifiedContrib_of_key e' t' w hkey',
                    notifiedContrib_of_key e' t' { w with
                      status := WaitlistStatus.notified, notificationSent := true,
                      notificationTime := some now,
                      expirationTime := some (now + 30 * 60 * 1000) } hkey'] at hn3
                  refine ⟨g1, g2, g3, ?_⟩
                  rw [hn3]
                  omega
              · intro e' t' hlk
                by_cases hkey : (e', t') = (e, t)
                · rw [hkey, lookupKey_updateKey_self, hinv] at hlk
                  exact Option.noConfusion hlk
                · rw [lookupKey_updateKey_ne _ hkey _] at hlk
                  obtain ⟨g1, g2, g3⟩ := hI.invAbsent e' t' hlk
                  have hkey' : ¬ (w.eventId = e' ∧ w.ticketTypeId = t') := by
                    intro hcontra
                    exact hkey (by rw [← hcontra.1, ← hcontra.2, hwe, hwt])
                  have hn3 := notifiedSum_notify e' t' wid now (now + 30 * 60 * 1000)
                    s.waitlist w hw
                  rw [notifiedContrib_of_key e' t' w hkey',
                    notifiedContrib_of_key e' t' { w with
                      status := WaitlistStatus.notified, notificationSent := true,
                      notificationTime := some now,
                      expirationTime := some (now + 30 * 60 * 1000) } hkey'] at hn3
                  refine ⟨g1, g2, ?_⟩
                  rw [hn3]
                  omega
            have hsnaptail2 : ∀ p ∈ rest, lookupKey p.1
                ({ s with
                  inventory := updateKey (e, t)
                    (fun inv => { inv with
                      availableQuantity := inventory.availableQuantity - w.quantity,
                      lastUpdated := now }) s.inventory,
                  waitlist := updateKey wid
                    (fun x => { x with
                      status := .notified, notificationSent := true,
                      notificationTime := some now,
                      expirationTime := some (now + 30 * 60 * 1000) }) s.waitlist } :
                  EngineState).waitlist = some p.2 ∧
                p.2.status = .waiting ∧ p.2.eventId = e ∧ p.2.ticketTypeId = t := by
              intro p hp
              obtain ⟨hl, hst, he2, ht2⟩ := hsnaptail p hp
              have hpne : p.1 ≠ wid := by
                intro hcontra
                exact hwidmem (hcontra ▸ List.mem_map_of_mem Prod.fst hp)
              refine ⟨?_, hst, he2, ht2⟩
              simp only []
              rw [lookupKey_updateKey_ne _ hpne _]
              exact hl
            exact invariant_notifyLoop e t now rest _ _ hI2 hndtail hsnaptail2
      · simp only [if_neg h2]
        exact hI

theorem invariant_processWaitlist (s : EngineState) (e t : String)
    (freed now : Int) (hI : Invariant s) :
    Invariant (processWaitlist s e t freed now) := by
  unfold processWaitlist
  by_cases h : freed ≤ 0
  · simpa [h] using hI
  · simp only [if_neg h]
    exact invariant_notifyLoop e t now (waitlistQuery s e t) s freed hI
      (waitlistQuery_nodup_keys s e t hI.wlNodup)
      (fun p hp => by
        obtain ⟨hmem, hst, he, ht⟩ := waitlistQuery_mem s e t p hp
        exact ⟨lookupKey_eq_of_mem_of_nodup (by
            cases p
            exact hmem) hI.wlNodup, hst, he, ht⟩)

/-! ### Invariant preservation: reservation expiry -/

theorem invariant_processReservationExpiry (s : EngineState) (rid : Nat) (now : Int)
    (hI : Invariant s) : Invariant (processReservationExpiry s rid now) := by
  unfold processReservationExpiry
  rcases hres : lookupKey rid s.reservations with _ | r
  · exact hI
  · by_cases hp : r.status = ReservationStatus.pending
    · simp only [hp, if_true]
      obtain ⟨inv, hinv⟩ := pending_has_inventory s rid r hI hres hp
      have hq : 0 < r.quantity := hI.resPos _ (lookupKey_mem rid s.reservations r hres)
      simp only [hinv]
      apply invariant_processWaitlist
      refine ⟨?_, hI.wlPos, hI.wlFresh, hI.wlNodup, hI.eventsPos, ?_, ?_⟩
      · intro p hp2
        rcases mem_updateKey _ _ _ p hp2 with h | ⟨a, ha, hpa⟩
        · exact hI.resPos p h
        · rw [ha] at hres
          injection hres with h2
          subst h2 hpa
          exact hq
      · intro e' t' inv' hlk
        by_cases hkey : (e', t') = (r.eventId, r.ticketTypeId)
        · rw [hkey, lookupKey_updateKey_self, hinv] at hlk
          injection hlk with h2
          obtain ⟨g1, g2, g3, g4⟩ := hI.invGood r.eventId r.ticketTypeId inv hinv
          injection hkey with he' ht'
          subst he' ht' h2
          have hp2 := pendingSum_setStatus r.eventId r.ticketTypeId rid
            ReservationStatus.expired s.reservations r hres
          have hc2 := completedSum_setStatus r.eventId r.ticketTypeId rid
            ReservationStatus.expired s.reservations r hres
          rw [pendingContrib_self r.eventId r.ticketTypeId r rfl rfl hp,
            pendingContrib_of_status r.eventId r.ticketTypeId _ (by simp)] at hp2
          rw [completedContrib_of_status r.eventId r.ticketTypeId r (by simp [hp]),
            completedContrib_of_status r.eventId r.ticketTypeId
              { r with status := ReservationStatus.expired } (by simp)] at hc2
          refine ⟨?_, ?_, ?_, ?_⟩
          · simp only []
            omega
          · rw [hp2]
            simp only []
            omega
          · rw [hc2]
            simp only []
            omega
          · simp only []
            omega
        · rw [lookupKey_updateKey_ne _ hkey _] at hlk
          obtain ⟨g1, g2, g3, g4⟩ := hI.invGood e' t' inv' hlk
          have hkey' : ¬ (r.eventId = e' ∧ r.ticketTypeId = t') := by
            intro hcontra
            exact hkey (by rw [hcontra.1, hcontra.2])
          have hp2 := pendingSum_setStatus e' t' rid
            ReservationStatus.expired s.reservations r hres
          have hc2 := completedSum_setStatus e' t' rid
            ReservationStatus.expired s.reservations r hres
          rw [pendingContrib_of_key e' t' r hkey',
            pendingContrib_of_key e' t'
              { r with status := ReservationStatus.expired } hkey'] at hp2
          rw [completedContrib_of_key e' t' r hkey',
            completedContrib_of_key e' t'
              { r with status := ReservationStatus.expired } hkey'] at hc2
          refine ⟨g1, ?_, ?_, g4⟩
          · rw [hp2]
            omega
          · rw [hc2]
            omega
      · intro e' t' hlk
        by_cases hkey : (e', t') = (r.eventId, r.ticketTypeId)
        · rw [hkey, lookupKey_updateKey_self, hinv] at hlk
          exact Option.noConfusion hlk
        · rw [lookupKey_updateKey_ne _ hkey _] at hlk
          obtain ⟨g1, g2, g3⟩ := hI.invAbsent e' t' hlk
          have hkey' : ¬ (r.eventId = e' ∧ r.ticketTypeId = t') := by
            intro hcontra
            exact hkey (by rw [hcontra.1, hcontra.2])
          have hp2 := pendingSum_setStatus e' t' rid
            ReservationStatus.expired s.reservations r hres
          have hc2 := completedSum_setStatus e' t' rid
            ReservationStatus.expired s.reservations r hres
          rw [pendingContrib_of_key e' t' r hkey',
            pendingContrib_of_key e' t'
              { r with status := ReservationStatus.expired } hkey'] at hp2
          rw [completedContrib_of_key e' t' r hkey',
            completedContrib_of_key e' t'
              { r with status := ReservationStatus.expired } hkey'] at hc2
          refine ⟨?_, ?_, g3⟩
          · rw [hp2]
            omega
          · rw [hc2]
            omega
    · simp only [if_neg hp]
      exact hI

/-! ### Invariant preservation: waitlist notification expiry -/

theorem invariant_processWaitlistNotificationExpiry (s : EngineState) (wid : Nat)
    (now : Int) (hI : Invariant s) :
    Invariant (processWaitlistNotificationExpiry s wid now) := by
  unfold processWaitlistNotificationExpiry
  rcases hw : lookupKey wid s.waitlist with _ | entry
  · exact hI
  · by_cases hst : entry.status = WaitlistStatus.notified
    · simp only [hst, if_true]
      obtain ⟨inv, hinv⟩ := notified_has_inventory s wid entry hI hw hst
      have hq : 0 < entry.quantity := hI.wlPos _ (lookupKey_mem wid s.waitlist entry hw)
      simp only [hinv]
      apply invariant_processWaitlist
      refine ⟨hI.resPos, ?_, ?_, ?_, hI.eventsPos, ?_, ?_⟩
      · intro p hp
        rcases mem_updateKey _ _ _ p hp with h | ⟨a, ha, hpa⟩
        · exact hI.wlPos p h
        · rw [ha] at hw
          injection hw with h2
          subst h2 hpa
          exact hq
      · intro p hp
        rcases mem_updateKey _ _ _ p hp with h | ⟨a, ha, hpa⟩
        · exact hI.wlFresh p h
        · subst hpa
          exact hI.wlFresh (wid, a) (lookupKey_mem wid s.waitlist a ha)
      · rw [updateKey_keys]
        exact hI.wlNodup
      · intro e' t' inv' hlk
        by_cases hkey : (e', t') = (entry.eventId, entry.ticketTypeId)
        · rw [hkey, lookupKey_updateKey_self, hinv] at hlk
          injection hlk with h2
          obtain ⟨g1, g2, g3, g4⟩ :=
            hI.invGood entry.eventId entry.ticketTypeId inv hinv
          injection hkey with he' ht'
          subst he' ht' h2
          have hn2 := notifiedSum_setStatus entry.eventId entry.ticketTypeId wid
            WaitlistStatus.expired s.waitlist entry hw
          rw [notifiedContrib_self entry.eventId entry.ticketTypeId entry rfl rfl hst,
            notifiedContrib_of_status entry.eventId entry.ticketTypeId
              { entry with status := WaitlistStatus.expired } (by simp)] at hn2
          refine ⟨?_, g2, g3, ?_⟩
          · simp only []
            omega
          · rw [hn2]
            simp only []
            omega
        · rw [lookupKey_updateKey_ne _ hkey _] at hlk
          obtain ⟨g1, g2, g3, g4⟩ := hI.invGood e' t' inv' hlk
          have hkey' : ¬ (entry.eventId = e' ∧ entry.ticketTypeId = t') := by
            intro hcontra
            exact hkey (by rw [hcontra.1, hcontra.2])
          have hn2 := notifiedSum_setStatus e' t' wid
            WaitlistStatus.expired s.waitlist entry hw
          rw [notifiedContrib_of_key e' t' entry hkey',
            notifiedContrib_of_key e' t'
              { entry with status := WaitlistStatus.expired } hkey'] at hn2
          refine ⟨g1, g2, g3, ?_⟩
          rw [hn2]
          omega
      · intro e' t' hlk
        by_cases hkey : (e', t') = (entry.eventId, entry.ticketTypeId)
        · rw [hkey, lookupKey_updateKey_self, hinv] at hlk
          exact Option.noConfusion hlk
        · rw [lookupKey_updateKey_ne _ hkey _] at hlk
          obtain ⟨g1, g2, g3⟩ := hI.invAbsent e' t' hlk
          have hkey' : ¬ (entry.eventId = e' ∧ entry.ticketTypeId = t') := by
            intro hcontra
            exact hkey (by rw [hcontra.1, hcontra.2])
          have hn2 := notifiedSum_setStatus e' t' wid
            WaitlistStatus.expired s.waitlist entry hw
          rw [notifiedContrib_of_key e' t' entry hkey',
            notifiedContrib_of_key e' t'
              { entry with status := WaitlistStatus.expired } hkey'] at hn2
          refine ⟨g1, g2, ?_⟩
          rw [hn2]
          omega
    · simp only [if_neg hst]
      exact hI

/-! ### Invariant preservation: waitlist claim -/

theorem invariant_claimWaitlisted (s : EngineState) (u : String) (wid : Nat)
    (now : Int) (hI : Invariant s) :
    Invariant (claimWaitlistedState s u wid now) := by
  unfold claimWaitlistedState claimWaitlistedTickets
  rcases hw : lookupKey wid s.waitlist with _ | entry
  · exact hI
  · by_cases hu : entry.userId ≠ u
    · simp only [if_pos hu]
      exact hI
    · simp only [if_neg hu]
      by_cases hst : entry.status ≠ WaitlistStatus.notified
      · simp only [if_pos hst]
        exact hI
      · simp only [if_neg hst]
        push_neg at hst
        rcases hexp : entry.expirationTime with _ | expT
        · exact hI
        · by_cases hlate : expT < now
          · simp only [if_pos hlate]
            exact hI
          · simp only [if_neg hlate]
            obtain ⟨inv, hinv⟩ := notified_has_inventory s wid entry hI hw hst
            have hq : 0 < entry.quantity :=
              hI.wlPos _ (lookupKey_mem wid s.waitlist entry hw)
            simp only [hinv]
            refine ⟨?_, ?_, ?_, ?_, hI.eventsPos, ?_, ?_⟩
            · intro p hp
              rcases List.mem_cons.mp hp with h | h
              · rw [h]
                exact hq
              · exact hI.resPos p h
            · intro p hp
              rcases mem_updateKey _ _ _ p hp with h | ⟨a, ha, hpa⟩
              · exact hI.wlPos p h
              · rw [ha] at hw
                injection hw with h2
                subst h2 hpa
                exact hq
            · intro p hp
              rcases mem_updateKey _ _ _ p hp with h | ⟨a, ha, hpa⟩
              · exact Nat.lt_succ_of_lt (hI.wlFresh p h)
              · subst hpa
                exact Nat.lt_succ_of_lt
                  (hI.wlFresh (wid, a) (lookupKey_mem wid s.waitlist a ha))
            · rw [updateKey_keys]
              exact hI.wlNodup
            · intro e' t' inv' hlk
              by_cases hkey : (e', t') = (entry.eventId, entry.ticketTypeId)
              · rw [hkey, lookupKey_updateKey_self, hinv] at hlk
                injection hlk with h2
                obtain ⟨g1, g2, g3, g4⟩ :=
                  hI.invGood entry.eventId entry.ticketTypeId inv hinv
                injection hkey with he' ht'
                subst he' ht' h2
                have hn2 := notifiedSum_setStatus entry.eventId entry.ticketTypeId
                  wid WaitlistStatus.claimed s.waitlist entry hw
                rw [notifiedContrib_self entry.eventId entry.ticketTypeId entry
                    rfl rfl hst,
                  notifiedContrib_of_status entry.eventId entry.ticketTypeId
                    { entry with status := WaitlistStatus.claimed } (by simp)] at hn2
                have hcnew : pendingContrib entry.eventId entry.ticketTypeId
                    { userId := entry.userId, eventId := entry.eventId,
                      ticketTypeId := entry.ticketTypeId, quantity := entry.quantity,
                      reservationTime := now,
                      expirationTime := now + 10 * 60 * 1000,
                      status := ReservationStatus.pending } = entry.quantity :=
                  pendingContrib_self _ _ _ rfl rfl rfl
                have hdnew : completedContrib entry.eventId entry.ticketTypeId
                    { userId := entry.userId, eventId := entry.eventId,
                      ticketTypeId := entry.ticketTypeId, quantity := entry.quantity,
                      reservationTime := now,
                      expirationTime := now + 10 * 60 * 1000,
                      status := ReservationStatus.pending } = 0 :=
                  completedContrib_of_status _ _ _ (by simp)
                refine ⟨?_, ?_, ?_, ?_⟩
                · simp only []
                  omega
                · simp only [pendingSum, sumBy, hcnew]
                  rw [← pendingSum]
                  omega
                · simp only [completedSum, sumBy, hdnew]
                  rw [← completedSum]
                  omega
                · rw [hn2]
                  simp only []
                  omega
              · rw [lookupKey_updateKey_ne _ hkey _] at hlk
                obtain ⟨g1, g2, g3, g4⟩ := hI.invGood e' t' inv' hlk
                have hkey' : ¬ (entry.eventId = e' ∧ entry.ticketTypeId = t') := by
                  intro hcontra
                  exact hkey (by rw [hcontra.1, hcontra.2])
                have hn2 := notifiedSum_setStatus e' t' wid
                  WaitlistStatus.claimed s.waitlist entry hw
                rw [notifiedContrib_of_key e' t' entry hkey',
                  notifiedContrib_of_key e' t'
                    { entry with status := WaitlistStatus.claimed } hkey'] at hn2
                have hcnew : pendingContrib e' t'
                    { userId := entry.userId, eventId := entry.eventId,
                      ticketTypeId := entry.ticketTypeId, quantity := entry.quantity,
                      reservationTime := now,
                      expirationTime := now + 10 * 60 * 1000,
                      status := ReservationStatus.pending } = 0 :=
                  pendingContrib_of_key _ _ _ hkey'
                have hdnew : completedContrib e' t'
                    { userId := entry.userId, eventId := entry.eventId,
                      ticketTypeId := entry.ticketTypeId, quantity := entry.quantity,
                      reservationTime := now,
                      expirationTime := now + 10 * 60 * 1000,
                      status := ReservationStatus.pending } = 0 :=
                  completedContrib_of_key _ _ _ hkey'
                refine ⟨g1, ?_, ?_, ?_⟩
                · simp only [pendingSum, sumBy, hcnew]
                  rw [← pendingSum]
                  omega
                · simp only [completedSum, sumBy, hdnew]
                  rw [← completedSum]
                  omega
                · rw [hn2]
                  omega
            · intro e' t' hlk
              by_cases hkey : (e', t') = (entry.eventId, entry.ticketTypeId)
              · rw [hkey, lookupKey_updateKey_self, hinv] at hlk
                exact Option.noConfusion hlk
              · rw [lookupKey_updateKey_ne _ hkey _] at hlk
                obtain ⟨g1, g2, g3⟩ := hI.invAbsent e' t' hlk
                have hkey' : ¬ (entry.eventId = e' ∧ entry.ticketTypeId = t') := by
                  intro hcontra
                  exact hkey (by rw [hcontra.1, hcontra.2])
                have hn2 := notifiedSum_setStatus e' t' wid
                  WaitlistStatus.claimed s.waitlist entry hw
                rw [notifiedContrib_of_key e' t' entry hkey',
                  notifiedContrib_of_key e' t'
                    { entry with status := WaitlistStatus.claimed } hkey'] at hn2
                have hcnew : pendingContrib e' t'
                    { userId := entry.userId, eventId := entry.eventId,
                      ticketTypeId := entry.ticketTypeId, quantity := entry.quantity,
                      reservationTime := now,
                      expirationTime := now + 10 * 60 * 1000,
                      status := ReservationStatus.pending } = 0 :=
                  pendingContrib_of_key _ _ _ hkey'
                have hdnew : completedContrib e' t'
                    { userId := entry.userId, eventId := entry.eventId,
                      ticketTypeId := entry.ticketTypeId, quantity := entry.quantity,
                      reservationTime := now,
                      expirationTime := now + 10 * 60 * 1000,
                      status := ReservationStatus.pending } = 0 :=
                  completedContrib_of_key _ _ _ hkey'
                refine ⟨?_, ?_, ?_⟩
                · simp only [pendingSum, sumBy, hcnew]
                  rw [← pendingSum]
                  omega
                · simp only [completedSum, sumBy, hdnew]
                  rw [← completedSum]
                  omega
                · rw [hn2]
                  omega

/-! ### Invariant preservation: reservation transaction -/

theorem invariant_reserve_existing (s : EngineState) (e t : String) (q now : Int)
    (inv : TicketInventory) (hI : Invariant s)
    (hlk : lookupKey (e, t) s.inventory = some inv)
    (hq : 0 < q) (hok : ¬ inv.availableQuantity < q) :
    Invariant { s with
      inventory := updateKey (e, t)
        (fun i => { i with
          availableQuantity := inv.availableQuantity - q,
          reservedQuantity := inv.reservedQuantity + q,
          lastUpdated := now }) s.inventory } := by
  refine ⟨hI.resPos, hI.wlPos, hI.wlFresh, hI.wlNodup, hI.eventsPos, ?_, ?_⟩
  · intro e' t' inv' hlk'
    by_cases hkey : (e', t') = (e, t)
    · rw [hkey, lookupKey_updateKey_self, hlk] at hlk'
      injection hlk' with h2
      obtain ⟨g1, g2, g3, g4⟩ := hI.invGood e t inv hlk
      injection hkey with he' ht'
      subst he' ht' h2
      refine ⟨?_, ?_, ?_, ?_⟩
      · simp only []
        omega
      · simp only []
        omega
      · simp only []
        omega
      · simp only []
        omega
    · rw [lookupKey_updateKey_ne _ hkey _] at hlk'
      exact hI.invGood e' t' inv' hlk'
  · intro e' t' hlk'
    by_cases hkey : (e', t') = (e, t)
    · rw [hkey, lookupKey_updateKey_self, hlk] at hlk'
      exact Option.noConfusion hlk'
    · rw [lookupKey_updateKey_ne _ hkey _] at hlk'
      exact hI.invAbsent e' t' hlk'

theorem invariant_set_new_inventory (s : EngineState) (e t : String) (T now : Int)
    (hI : Invariant s) (hlk : lookupKey (e, t) s.inventory = none) (hT : 0 ≤ T) :
    Invariant { s with
      inventory := setKey (e, t)
        { eventId := e, ticketTypeId := t, totalQuantity := T,
          availableQuantity := T, reservedQuantity := 0, soldQuantity := 0,
          lastUpdated := now } s.inventory } := by
  refine ⟨hI.resPos, hI.wlPos, hI.wlFresh, hI.wlNodup, hI.eventsPos, ?_, ?_⟩
  · intro e' t' inv' hlk'
    by_cases hkey : (e', t') = (e, t)
    · rw [hkey, lookupKey_setKey_self] at hlk'
      injection hlk' with h2
      obtain ⟨g1, g2, g3⟩ := hI.invAbsent e t hlk
      injection hkey with he' ht'
      subst he' ht' h2
      refine ⟨by simpa using hT, ?_, ?_, ?_⟩
      · simp only []
        omega
      · simp only []
        omega
      · simp only []
        omega
    · rw [lookupKey_setKey_ne _ hkey _] at hlk'
      exact hI.invGood e' t' inv' hlk'
  · intro e' t' hlk'
    by_cases hkey : (e', t') = (e, t)
    · rw [hkey, lookupKey_setKey_self] at hlk'
      exact Option.noConfusion hlk'
    · rw [lookupKey_setKey_ne _ hkey _] at hlk'
      exact hI.invAbsent e' t' hlk'

theorem invariant_reserve_new (s : EngineState) (e t : String) (T q now : Int)
    (hI : Invariant s) (hlk : lookupKey (e, t) s.inventory = none)
    (hT : 0 ≤ T) (hq : 0 < q) (hok : ¬ T < q) :
    Invariant { s with
      inventory := updateKey (e, t)
        (fun i => { i with
          availableQuantity := T - q, reservedQuantity := q, lastUpdated := now })
        (setKey (e, t)
          { eventId := e, ticketTypeId := t, totalQuantity := T,
            availableQuantity := T, reservedQuantity := 0, soldQuantity := 0,
            lastUpdated := now } s.inventory) } := by
  refine ⟨hI.resPos, hI.wlPos, hI.wlFresh, hI.wlNodup, hI.eventsPos, ?_, ?_⟩
  · intro e' t' inv' hlk'
    by_cases hkey : (e', t') = (e, t)
    · rw [hkey, lookupKey_updateKey_self, lookupKey_setKey_self] at hlk'
      injection hlk' with h2
      obtain ⟨g1, g2, g3⟩ := hI.invAbsent e t hlk
      injection hkey with he' ht'
      subst he' ht' h2
      refine ⟨?_, ?_, ?_, ?_⟩
      · simp only []
        omega
      · simp only []
        omega
      · simp only []
        omega
      · simp only []
        omega
    · rw [lookupKey_updateKey_ne _ hkey _, lookupKey_setKey_ne _ hkey _] at hlk'
      exact hI.invGood e' t' inv' hlk'
  · intro e' t' hlk'
    by_cases hkey : (e', t') = (e, t)
    · rw [hkey, lookupKey_updateKey_self, lookupKey_setKey_self] at hlk'
      exact Option.noConfusion hlk'
    · rw [lookupKey_updateKey_ne _ hkey _, lookupKey_setKey_ne _ hkey _] at hlk'
      exact hI.invAbsent e' t' hlk'

theorem resSlack_mono_existing (s : EngineState) (e t : String) (q now : Int)
    (inv : TicketInventory) (hlk : lookupKey (e, t) s.inventory = some inv)
    (hq : 0 ≤ q) (k : String × String) (c : Int) (h : ResSlack s k c) :
    ResSlack { s with
      inventory := updateKey (e, t)
        (fun i => { i with
          availableQuantity := inv.availableQuantity - q,
          reservedQuantity := inv.reservedQuantity + q,
          lastUpdated := now }) s.inventory } k c := by
  obtain ⟨inv0, hlk0, hle⟩ := h
  by_cases hkey : k = (e, t)
  · subst hkey
    rw [hlk0] at hlk
    injection hlk with h2
    subst h2
    refine ⟨_, by
      simp only []
      rw [lookupKey_updateKey_self, hlk0]
      rfl, ?_⟩
    have hle' : pendingSum e t s.reservations + c ≤ inv0.reservedQuantity := hle
    simp only []
    omega
  · refine ⟨inv0, ?_, hle⟩
    simp only []
    rw [lookupKey_updateKey_ne _ hkey _]
    exact hlk0

theorem resSlack_mono_new (s : EngineState) (e t : String) (T q now : Int)
    (hlk : lookupKey (e, t) s.inventory = none)
    (k : String × String) (c : Int) (h : ResSlack s k c) :
    ResSlack { s with
      inventory := updateKey (e, t)
        (fun i => { i with
          availableQuantity := T - q, reservedQuantity := q, lastUpdated := now })
        (setKey (e, t)
          { eventId := e, ticketTypeId := t, totalQuantity := T,
            availableQuantity := T, reservedQuantity := 0, soldQuantity := 0,
            lastUpdated := now } s.inventory) } k c := by
  obtain ⟨inv0, hlk0, hle⟩ := h
  have hkey : k ≠ (e, t) := by
    intro hcontra
    rw [hcontra, hlk] at hlk0
    exact Option.noConfusion hlk0
  refine ⟨inv0, ?_, hle⟩
  simp only []
  rw [lookupKey_updateKey_ne _ hkey _, lookupKey_setKey_ne _ hkey _]
  exact hlk0

theorem resSlack_established_existing (s : EngineState) (e t : String) (q now : Int)
    (inv : TicketInventory) (hI : Invariant s)
    (hlk : lookupKey (e, t) s.inventory = some inv) :
    ResSlack { s with
      inventory := updateKey (e, t)
        (fun i => { i with
          availableQuantity := inv.availableQuantity - q,
          reservedQuantity := inv.reservedQuantity + q,
          lastUpdated := now }) s.inventory } (e, t) q := by
  obtain ⟨g1, g2, g3, g4⟩ := hI.invGood e t inv hlk
  refine ⟨_, by
    simp only []
    rw [lookupKey_updateKey_self, hlk]
    rfl, ?_⟩
  simp only []
  omega

theorem resSlack_established_new (s : EngineState) (e t : String) (T q now : Int)
    (hI : Invariant s) (hlk : lookupKey (e, t) s.inventory = none) :
    ResSlack { s with
      inventory := updateKey (e, t)
        (fun i => { i with
          availableQuantity := T - q, reservedQuantity := q, lastUpdated := now })
        (setKey (e, t)
          { eventId := e, ticketTypeId := t, totalQuantity := T,
            availableQuantity := T, reservedQuantity := 0, soldQuantity := 0,
            lastUpdated := now } s.inventory) } (e, t) q := by
  obtain ⟨g1, g2, g3⟩ := hI.invAbsent e t hlk
  refine ⟨_, by
    simp only []
    rw [lookupKey_updateKey_self, lookupKey_setKey_self]
    rfl, ?_⟩
  simp only []
  omega

theorem reserveLines_invariant_ok (u eventId : String) (ev : EventData) (now : Int) :
    ∀ (lines : List TicketLine) (s s' : EngineState),
      reserveLines u eventId ev now s lines = .ok s' →
      Invariant s → lookupKey eventId s.events = some ev →
      (∀ l ∈ lines, 0 < l.quantity) →
      Invariant s' ∧ (∀ k c, ResSlack s k c → ResSlack s' k c) ∧
        (∀ l ∈ lines, ResSlack s' (eventId, l.ticketTypeId) l.quantity)
  | [], s, s', h, hI, hev, hq => by
    simp only [reserveLines] at h
    injection h with h2
    subst h2
    exact ⟨hI, fun k c hc => hc, fun l hl => absurd hl (List.not_mem_nil l)⟩
  | line :: rest, s, s', h, hI, hev, hq => by
    have hqline : 0 < line.quantity := hq line (List.mem_cons_self _ _)
    have hqrest : ∀ l ∈ rest, 0 < l.quantity :=
      fun l hl => hq l (List.mem_cons_of_mem _ hl)
    simp only [reserveLines] at h
    rcases hk : lookupKey (eventId, line.ticketTypeId) s.inventory with _ | inventory
    · simp only [hk] at h
      rcases hft : ev.tickets.find? (fun x => x.name = line.ticketTypeId) with _ | tt
      · simp only [hft] at h
        exact ReserveLinesOut.noConfusion h
      · simp only [hft] at h
        have hT : 0 ≤ tt.totalQuantity :=
          hI.eventsPos (eventId, ev) (lookupKey_mem eventId s.events ev hev) tt
            (List.mem_of_find?_eq_some hft)
        by_cases hlt : tt.totalQuantity < line.quantity
        · simp only [if_pos hlt] at h
          exact ReserveLinesOut.noConfusion h
        · simp only [if_neg hlt] at h
          have hI2 := invariant_reserve_new s eventId line.ticketTypeId
            tt.totalQuantity line.quantity now hI hk hT hqline hlt
          obtain ⟨hInv', hmono, hlines⟩ := reserveLines_invariant_ok u eventId ev now
            rest _ s' h hI2 hev hqrest
          refine ⟨hInv', ?_, ?_⟩
          · intro k c hc
            exact hmono k c (resSlack_mono_new s eventId line.ticketTypeId
              tt.totalQuantity line.quantity now hk k c hc)
          · intro l hl
            rcases List.mem_cons.mp hl with h1 | h1
            · subst h1
              exact hmono _ _ (resSlack_established_new s eventId l.ticketTypeId
                tt.totalQuantity l.quantity now hI hk)
            · exact hlines l h1
    · simp only [hk] at h
      by_cases hlt : inventory.availableQuantity < line.quantity
      · simp only [if_pos hlt] at h
        exact ReserveLinesOut.noConfusion h
      · simp only [if_neg hlt] at h
        have hI2 := invariant_reserve_existing s eventId line.ticketTypeId
          line.quantity now inventory hI hk hqline hlt
        obtain ⟨hInv', hmono, hlines⟩ := reserveLines_invariant_ok u eventId ev now
          rest _ s' h hI2 hev hqrest
        refine ⟨hInv', ?_, ?_⟩
        · intro k c hc
          exact hmono k c (resSlack_mono_existing s eventId line.ticketTypeId
            line.quantity now inventory hk (le_of_lt hqline) k c hc)
        · intro l hl
          rcases List.mem_cons.mp hl with h1 | h1
          · subst h1
            exact hmono _ _ (resSlack_established_existing s eventId l.ticketTypeId
              l.quantity now inventory hI hk)
          · exact hlines l h1

theorem reserveLines_invariant_stop (u eventId : String) (ev : EventData) (now : Int) :
    ∀ (lines : List TicketLine) (s s' : EngineState) (r : TicketReservationResult),
      reserveLines u eventId ev now s lines = .stop r s' →
      Invariant s → lookupKey eventId s.events = some ev →
      (∀ l ∈ lines, 0 < l.quantity) →
      Invariant s'
  | [], s, s', r, h, hI, hev, hq => by
    simp only [reserveLines] at h
    exact ReserveLinesOut.noConfusion h
  | line :: rest, s, s', r, h, hI, hev, hq => by
    have hqline : 0 < line.quantity := hq line (List.mem_cons_self _ _)
    have hqrest : ∀ l ∈ rest, 0 < l.quantity :=
      fun l hl => hq l (List.mem_cons_of_mem _ hl)
    simp only [reserveLines] at h
    rcases hk : lookupKey (eventId, line.ticketTypeId) s.inventory with _ | inventory
    · simp only [hk] at h
      rcases hft : ev.tickets.find? (fun x => x.name = line.ticketTypeId) with _ | tt
      · simp only [hft] at h
        injection h with h1 h2
        subst h2
        exact hI
      · simp only [hft] at h
        have hT : 0 ≤ tt.totalQuantity :=
          hI.eventsPos (eventId, ev) (lookupKey_mem eventId s.events ev hev) tt
            (List.mem_of_find?_eq_some hft)
        by_cases hlt : tt.totalQuantity < line.quantity
        · simp only [if_pos hlt] at h
          injection h with h1 h2
          subst h2
          exact invariant_addToWaitlist _ u eventId line.ticketTypeId line.quantity
            now (invariant_set_new_inventory s eventId line.ticketTypeId
              tt.totalQuantity now hI hk hT) hqline
        · simp only [if_neg hlt] at h
          have hI2 := invariant_reserve_new s eventId line.ticketTypeId
            tt.totalQuantity line.quantity now hI hk hT hqline hlt
          exact reserveLines_invariant_stop u eventId ev now rest _ s' r h hI2
            hev hqrest
    · simp only [hk] at h
      by_cases hlt : inventory.availableQuantity < line.quantity
      · simp only [if_pos hlt] at h
        injection h with h1 h2
        subst h2
        exact invariant_addToWaitlist _ u eventId line.ticketTypeId line.quantity
          now hI hqline
      · simp only [if_neg hlt] at h
        have hI2 := invariant_reserve_existing s eventId line.ticketTypeId
          line.quantity now inventory hI hk hqline hlt
        exact reserveLines_invariant_stop u eventId ev now rest _ s' r h hI2
          hev hqrest

theorem invariant_processReservationTransaction (s : EngineState) (u eventId : String)
    (tickets : List TicketLine) (timestamp now : Int) (hI : Invariant s)
    (hq : ∀ l ∈ tickets, 0 < l.quantity) :
    Invariant (processReservationTransaction s u eventId tickets timestamp now).2 := by
  unfold processReservationTransaction
  rcases hev : lookupKey eventId s.events with _ | ev
  · exact hI
  · simp only []
    split
    · next r s' heq =>
      exact reserveLines_invariant_stop u eventId ev now tickets s s' r heq hI hev hq
    · next s' heq =>
      obtain ⟨hInv', hmono, hlines⟩ := reserveLines_invariant_ok u eventId ev now
        tickets s s' heq hI hev hq
      split
      · exact hInv'
      · next first tail =>
        have hqf : 0 < first.quantity := hq first (List.mem_cons_self _ _)
        obtain ⟨inv, hlkinv, hle⟩ := hlines first (List.mem_cons_self _ _)
        have hle2 : pendingSum eventId first.ticketTypeId s'.reservations +
            first.quantity ≤ inv.reservedQuantity := hle
        refine ⟨?_, hInv'.wlPos, ?_, hInv'.wlNodup, hInv'.eventsPos, ?_, ?_⟩
        · intro p hp
          rcases List.mem_cons.mp hp with h1 | h1
          · rw [h1]
            exact hqf
          · exact hInv'.resPos p h1
        · intro p hp
          exact Nat.lt_succ_of_lt (hInv'.wlFresh p hp)
        · intro e' t' inv' hlk
          by_cases hkey : (e', t') = (eventId, first.ticketTypeId)
          · injection hkey with he' ht'
            rw [he', ht'] at hlk ⊢
            rw [hlk] at hlkinv
            injection hlkinv with h2
            subst h2
            obtain ⟨g1, g2, g3, g4⟩ := hInv'.invGood eventId first.ticketTypeId
              _ hlk
            have hcnew : pendingContrib eventId first.ticketTypeId
                { userId := u, eventId := eventId,
                  ticketTypeId := first.ticketTypeId, quantity := first.quantity,
                  reservationTime := timestamp,
                  expirationTime := now + 10 * 60 * 1000,
                  status := ReservationStatus.pending } = first.quantity :=
              pendingContrib_self _ _ _ rfl rfl rfl
            have hdnew : completedContrib eventId first.ticketTypeId
                { userId := u, eventId := eventId,
                  ticketTypeId := first.ticketTypeId, quantity := first.quantity,
                  reservationTime := timestamp,
                  expirationTime := now + 10 * 60 * 1000,
                  status := ReservationStatus.pending } = 0 :=
              completedContrib_of_status _ _ _ (by simp)
            refine ⟨g1, ?_, ?_, g4⟩
            · simp only [pendingSum, sumBy, hcnew]
              rw [← pendingSum]
              omega
            · simp only [completedSum, sumBy, hdnew]
              rw [← completedSum]
              omega
          · have hkey' : ¬ (eventId = e' ∧ first.ticketTypeId = t') := by
              intro hcontra
              exact hkey (by rw [hcontra.1, hcontra.2])
            obtain ⟨g1, g2, g3, g4⟩ := hInv'.invGood e' t' inv' hlk
            have hcnew : pendingContrib e' t'
                { userId := u, eventId := eventId,
                  ticketTypeId := first.ticketTypeId, quantity := first.quantity,
                  reservationTime := timestamp,
                  expirationTime := now + 10 * 60 * 1000,
                  status := ReservationStatus.pending } = 0 :=
              pendingContrib_of_key _ _ _ hkey'
            have hdnew : completedContrib e' t'
                { userId := u, eventId := eventId,
                  ticketTypeId := first.ticketTypeId, quantity := first.quantity,
                  reservationTime := timestamp,
                  expirationTime := now + 10 * 60 * 1000,
                  status := ReservationStatus.pending } = 0 :=
              completedContrib_of_key _ _ _ hkey'
            refine ⟨g1, ?_, ?_, g4⟩
            · simp only [pendingSum, sumBy, hcnew]
              rw [← pendingSum]
              omega
            · simp only [completedSum, sumBy, hdnew]
              rw [← completedSum]
              omega
        · intro e' t' hlk
          by_cases hkey : (e', t') = (eventId, first.ticketTypeId)
          · rw [hkey, hlkinv] at hlk
            exact Option.noConfusion hlk
          · have hkey' : ¬ (eventId = e' ∧ first.ticketTypeId = t') := by
              intro hcontra
              exact hkey (by rw [hcontra.1, hcontra.2])
            obtain ⟨g1, g2, g3⟩ := hInv'.invAbsent e' t' hlk
            have hcnew : pendingContrib e' t'
                { userId := u, eventId := eventId,
                  ticketTypeId := first.ticketTypeId, quantity := first.quantity,
                  reservationTime := timestamp,
                  expirationTime := now + 10 * 60 * 1000,
                  status := ReservationStatus.pending } = 0 :=
              pendingContrib_of_key _ _ _ hkey'
            have hdnew : completedContrib e' t'
                { userId := u, eventId := eventId,
                  ticketTypeId := first.ticketTypeId, quantity := first.quantity,
                  reservationTime := timestamp,
                  expirationTime := now + 10 * 60 * 1000,
                  status := ReservationStatus.pending } = 0 :=
              completedContrib_of_key _ _ _ hkey'
            refine ⟨?_, ?_, g3⟩
            · simp only [pendingSum, sumBy, hcnew]
              rw [← pendingSum]
              omega
            · simp only [completedSum, sumBy, hdnew]
              rw [← completedSum]
              omega

/-! ### Engine steps and reachability -/

/-- One invocation of an Engine operation (reserve requests carry the
spec's input constraint that every ticket line has positive quantity). -/
inductive Step : EngineState → EngineState → Prop
  | reserve (userId eventId : String) (tickets : List TicketLine)
      (timestamp now : Int) (s : EngineState)
      (hq : ∀ l ∈ tickets, 0 < l.quantity) :
      Step s (processReservationTransaction s userId eventId tickets timestamp now).2
  | complete (userId : String) (reservationId : Nat) (now : Int) (s : EngineState) :
      Step s (completePurchaseState s userId reservationId now)
  | expired (reservationId : Nat) (now : Int) (s : EngineState) :
      Step s (processReservationExpiry s reservationId now)
  | waitlistRun (eventId ticketTypeId : String) (freed now : Int) (s : EngineState) :
      Step s (processWaitlist s eventId ticketTypeId freed now)
  | waitlistExpired (waitlistId : Nat) (now : Int) (s : EngineState) :
      Step s (processWaitlistNotificationExpiry s waitlistId now)
  | claimed (userId : String) (waitlistId : Nat) (now : Int) (s : EngineState) :
      Step s (claimWaitlistedState s userId waitlistId now)

/-- Reachability through any finite sequence of Engine operations. -/
inductive Reach : EngineState → EngineState → Prop
  | refl (s : EngineState) : Reach s s
  | tail {s s' s'' : EngineState} : Reach s s' → Step s' s'' → Reach s s''

theorem invariant_step {s s' : EngineState} (hI : Invariant s) (h : Step s s') :
    Invariant s' := by
  cases h with
  | reserve userId eventId tickets timestamp now s hq =>
    exact invariant_processReservationTransaction s userId eventId tickets
      timestamp now hI hq
  | complete userId reservationId now s =>
    exact invariant_completePurchase s userId reservationId now hI
  | expired reservationId now s =>
    exact invariant_processReservationExpiry s reservationId now hI
  | waitlistRun eventId ticketTypeId freed now s =>
    exact invariant_processWaitlist s eventId ticketTypeId freed now hI
  | waitlistExpired waitlistId now s =>
    exact invariant_processWaitlistNotificationExpiry s waitlistId now hI
  | claimed userId waitlistId now s =>
    exact invariant_claimWaitlisted s userId waitlistId now hI

theorem invariant_reach {s s' : EngineState} (hI : Invariant s) (h : Reach s s') :
    Invariant s' := by
  induction h with
  | refl => exact hI
  | tail _ hstep ih => exact invariant_step ih hstep

/-! ### C1 — the inventory counter invariant -/

/-- Boolean check of the claimed three-way sum identity on one partition. -/
def inventorySumHolds (s : EngineState) (e t : String) : Bool :=
  match lookupKey (e, t) s.inventory with
  | none => true
  | some inv =>
    inv.availableQuantity + inv.reservedQuantity + inv.soldQuantity ==
      inv.totalQuantity

/-- Fresh system: one event with a single ticket type of 2 tickets. -/
def cexState0 : EngineState :=
  { events := [("e", { tickets := [{ name := "ga", totalQuantity := 2 }] })],
    inventory := [], reservations := [], waitlist := [], tickets := [], nextId := 0 }

/-- After alice reserves both tickets. -/
def cexState1 : EngineState :=
  (processReservationTransaction cexState0 "alice" "e"
    [{ ticketTypeId := "ga", quantity := 2 }] 100 100).2

/-- After bob's attempt for one ticket is waitlisted. -/
def cexState2 : EngineState :=
  (processReservationTransaction cexState1 "bob" "e"
    [{ ticketTypeId := "ga", quantity := 1 }] 200 200).2

/-- After alice's reservation expires: the release chains into
`processWaitlist`, which earmarks one ticket for bob by decrementing
`availableQuantity` without touching `reservedQuantity`. -/
def cexState3 : EngineState := processReservationExpiry cexState2 0 700000

/-- The fresh system state satisfies the inductive invariant. -/
theorem invariant_cexState0 : Invariant cexState0 := by
  refine ⟨?_, ?_, ?_, ?_, ?_, ?_, ?_⟩
  · intro p hp
    simp [cexState0] at hp
  · intro p hp
    simp [cexState0] at hp
  · intro p hp
    simp [cexState0] at hp
  · simp [cexState0]
  · intro p hp tt htt
    simp only [cexState0, List.mem_singleton] at hp
    subst hp
    simp only [List.mem_singleton] at htt
    subst htt
    decide
  · intro e t inv h
    simp [cexState0, lookupKey] at h
  · intro e t h
    exact ⟨rfl, rfl, rfl⟩

/-- The counterexample state is reachable by three Engine operations:
reserve(2), reserve(1) (waitlisted), expire. -/
theorem reach_cexState3 : Reach cexState0 cexState3 :=
  Reach.tail
    (Reach.tail
      (Reach.tail (Reach.refl cexState0)
        (Step.reserve "alice" "e" [{ ticketTypeId := "ga", quantity := 2 }]
          100 100 cexState0 (by decide)))
      (Step.reserve "bob" "e" [{ ticketTypeId := "ga", quantity := 1 }]
        200 200 cexState1 (by decide)))
    (Step.expired 0 700000 cexState2)

/-- C1 counterexample: from a fresh valid state, the sequence
reserve(2); reserve(1) (waitlisted); expireReservation reaches a state
whose inventory record violates
availableQuantity + reservedQuantity + soldQuantity == totalQuantity
(the record shows 1 + 0 + 0 with total 2, the missing ticket being
earmarked by the notified waitlist entry), refuting the claimed
three-way identity at reachable states. -/
theorem inventory_sum_invariant_cex :
    Invariant cexState0 ∧ Reach cexState0 cexState3 ∧
    inventorySumHolds cexState3 "e" "ga" = false :=
  ⟨invariant_cexState0, reach_cexState3, by decide⟩

/-- C1 (amended): for every InventoryRecord at every state reachable by
Engine operations (with reserve requests restricted to positive line
quantities) from a state satisfying the engine invariant,
availableQuantity, reservedQuantity and soldQuantity are all ≥ 0 and
availableQuantity + reservedQuantity + soldQuantity + (total quantity of
`notified` WaitlistEntries of that partition) == totalQuantity: the
three-way identity of the original claim holds only with the earmarked
waitlist quantity added. -/
theorem inventory_invariant_amended (s s' : EngineState) (e t : String)
    (inv : TicketInventory) (h0 : Invariant s) (hr : Reach s s')
    (hlk : lookupKey (e, t) s'.inventory = some inv) :
    0 ≤ inv.availableQuantity ∧ 0 ≤ inv.reservedQuantity ∧ 0 ≤ inv.soldQuantity ∧
    inv.availableQuantity + inv.reservedQuantity + inv.soldQuantity +
      notifiedSum e t s'.waitlist = inv.totalQuantity := by
  have hI := invariant_reach h0 hr
  obtain ⟨g1, g2, g3, g4⟩ := hI.invGood e t inv hlk
  have hpnn : 0 ≤ pendingSum e t s'.reservations :=
    sumBy_nonneg _ _ (fun p hp => pendingContrib_nonneg _ _ _ (hI.resPos p hp))
  have hcnn : 0 ≤ completedSum e t s'.reservations :=
    sumBy_nonneg _ _ (fun p hp => completedContrib_nonneg _ _ _ (hI.resPos p hp))
  exact ⟨g1, by omega, by omega, g4⟩

/-- C1 witness: the amended identity at the concrete reachable state of
the counterexample trace — 1 available + 0 reserved + 0 sold + 1
earmarked = 2 total. -/
theorem inventory_invariant_amended_witness :
    0 ≤ (1 : Int) ∧ 0 ≤ (0 : Int) ∧ 0 ≤ (0 : Int) ∧
    (1 : Int) + 0 + 0 + notifiedSum "e" "ga" cexState3.waitlist = 2 :=
  inventory_invariant_amended cexState0 cexState3 "e" "ga"
    { eventId := "e", ticketTypeId := "ga", totalQuantity := 2,
      availableQuantity := 1, reservedQuantity := 0, soldQuantity := 0,
      lastUpdated := 700000 }
    invariant_cexState0 reach_cexState3 (by decide)

/-! ### C10 — committed partial inventory updates without a reservation -/

/-- Composition of the reservation loop over an appended line list
when the first chunk runs to completion. -/
theorem reserveLines_append_ok (userId eventId : String) (ev : EventData) (now : Int) :
    ∀ (xs : List TicketLine) (s s₁ : EngineState),
      reserveLines userId eventId ev now s xs = .ok s₁ →
      ∀ ys, reserveLines userId eventId ev now s (xs ++ ys) =
        reserveLines userId eventId ev now s₁ ys
  | [], s, s₁, h, ys => by
    simp only [reserveLines] at h
    injection h with h2
    subst h2
    rfl
  | line :: rest, s, s₁, h, ys => by
    simp only [List.cons_append]
    simp only [reserveLines] at h ⊢
    rcases hk : lookupKey (eventId, line.ticketTypeId) s.inventory with _ | inventory
    · simp only [hk] at h ⊢
      rcases hft : ev.tickets.find? (fun t => t.name = line.ticketTypeId) with _ | tt
      · simp only [hft] at h
        exact ReserveLinesOut.noConfusion h
      · simp only [hft] at h ⊢
        by_cases hlt : tt.totalQuantity < line.quantity
        · simp only [if_pos hlt] at h
          exact ReserveLinesOut.noConfusion h
        · simp only [if_neg hlt] at h ⊢
          exact reserveLines_append_ok userId eventId ev now rest _ _ h ys
    · simp only [hk] at h ⊢
      by_cases hlt : inventory.availableQuantity < line.quantity
      · simp only [if_pos hlt] at h
        exact ReserveLinesOut.noConfusion h
      · simp only [if_neg hlt] at h ⊢
        exact reserveLines_append_ok userId eventId ev now rest _ _ h ys

/-- A completed reservation loop only stages inventory updates: the
reservation ledger, waitlist, events, tickets and id counter are
untouched. -/
theorem reserveLines_ok_frame (userId eventId : String) (ev : EventData) (now : Int) :
    ∀ (xs : List TicketLine) (s s₁ : EngineState),
      reserveLines userId eventId ev now s xs = .ok s₁ →
      s₁.reservations = s.reservations ∧ s₁.waitlist = s.waitlist ∧
      s₁.events = s.events ∧ s₁.tickets = s.tickets ∧ s₁.nextId = s.nextId
  | [], s, s₁, h => by
    simp only [reserveLines] at h
    injection h with h2
    subst h2
    exact ⟨rfl, rfl, rfl, rfl, rfl⟩
  | line :: rest, s, s₁, h => by
    simp only [reserveLines] at h
    rcases hk : lookupKey (eventId, line.ticketTypeId) s.inventory with _ | inventory
    · simp only [hk] at h
      rcases hft : ev.tickets.find? (fun t => t.name = line.ticketTypeId) with _ | tt
      · simp only [hft] at h
        exact ReserveLinesOut.noConfusion h
      · simp only [hft] at h
        by_cases hlt : tt.totalQuantity < line.quantity
        · simp only [if_pos hlt] at h
          exact ReserveLinesOut.noConfusion h
        · simp only [if_neg hlt] at h
          simpa using reserveLines_ok_frame userId eventId ev now rest _ _ h
    · simp only [hk] at h
      by_cases hlt : inventory.availableQuantity < line.quantity
      · simp only [if_pos hlt] at h
        exact ReserveLinesOut.noConfusion h
      · simp only [if_neg hlt] at h
        simpa using reserveLines_ok_frame userId eventId ev now rest _ _ h

/-- A completed reservation loop leaves the inventory of every ticket
type not named by its lines unchanged. -/
theorem reserveLines_ok_inv_frame (userId eventId : String) (ev : EventData) (now : Int) :
    ∀ (xs : List TicketLine) (s s₁ : EngineState),
      reserveLines userId eventId ev now s xs = .ok s₁ →
      ∀ t : String, t ∉ xs.map TicketLine.ticketTypeId →
        lookupKey (eventId, t) s₁.inventory = lookupKey (eventId, t) s.inventory
  | [], s, s₁, h, t, ht => by
    simp only [reserveLines] at h
    injection h with h2
    subst h2
    rfl
  | line :: rest, s, s₁, h, t, ht => by
    simp only [List.map_cons, List.mem_cons, not_or] at ht
    have htne : (eventId, t) ≠ (eventId, line.ticketTypeId) := fun hcontra =>
      ht.1 (congrArg Prod.snd hcontra)
    simp only [reserveLines] at h
    rcases hk : lookupKey (eventId, line.ticketTypeId) s.inventory with _ | inventory
    · simp only [hk] at h
      rcases hft : ev.tickets.find? (fun x => x.name = line.ticketTypeId) with _ | tt
      · simp only [hft] at h
        exact ReserveLinesOut.noConfusion h
      · simp only [hft] at h
        by_cases hlt : tt.totalQuantity < line.quantity
        · simp only [if_pos hlt] at h
          exact ReserveLinesOut.noConfusion h
        · simp only [if_neg hlt] at h
          have hrec := reserveLines_ok_inv_frame userId eventId ev now rest _ _ h t
            (by simpa using ht.2)
          rw [hrec]
          simp only []
          rw [lookupKey_updateKey_ne _ htne _, lookupKey_setKey_ne _ htne _]
    · simp only [hk] at h
      by_cases hlt : inventory.availableQuantity < line.quantity
      · simp only [if_pos hlt] at h
        exact ReserveLinesOut.noConfusion h
      · simp only [if_neg hlt] at h
        have hrec := reserveLines_ok_inv_frame userId eventId ev now rest _ _ h t
          (by simpa using ht.2)
        rw [hrec]
        simp only []
        rw [lookupKey_updateKey_ne _ htne _]

/-- C10: on a multi-line request whose first line is satisfiable but a
later line is not, the committed transaction keeps the earlier lines'
inventory decrements while creating no Reservation at all: the result
only reports the requester as waitlisted for the failing line, whose
fresh `waiting` entry is the only waitlist change. -/
theorem reserve_multiline_commit (s : EngineState) (userId eventId t1 tb : String)
    (q1 qb timestamp now : Int) (mid rest : List TicketLine)
    (ev : EventData) (inv1 invB : TicketInventory) (s2 : EngineState)
    (hev : lookupKey eventId s.events = some ev)
    (hinv1 : lookupKey (eventId, t1) s.inventory = some inv1)
    (h1 : ¬ inv1.availableQuantity < q1)
    (hmid : reserveLines userId eventId ev now
        { s with
          inventory := updateKey (eventId, t1)
            (fun i => { i with
              availableQuantity := inv1.availableQuantity - q1,
              reservedQuantity := inv1.reservedQuantity + q1,
              lastUpdated := now }) s.inventory } mid = .ok s2)
    (hmidT1 : t1 ∉ mid.map TicketLine.ticketTypeId)
    (hinvB : lookupKey (eventId, tb) s2.inventory = some invB)
    (hb : invB.availableQuantity < qb) :
    processReservationTransaction s userId eventId
        ({ ticketTypeId := t1, quantity := q1 } :: mid ++
          { ticketTypeId := tb, quantity := qb } :: rest) timestamp now =
      ({ success := false, reservationId := none, expiresAt := none,
         waitlisted := true, waitlistId := some s2.nextId,
         error := some "Not enough tickets available" },
       { s2 with
         waitlist := (s2.nextId,
           { userId := userId, eventId := eventId, ticketTypeId := tb,
             quantity := qb, requestTime := now, notificationSent := false,
             notificationTime := none, expirationTime := none,
             status := .waiting }) :: s2.waitlist,
         nextId := s2.nextId + 1 }) ∧
    s2.reservations = s.reservations ∧
    s2.waitlist = s.waitlist ∧
    lookupKey (eventId, t1) s2.inventory =
      some { inv1 with
        availableQuantity := inv1.availableQuantity - q1,
        reservedQuantity := inv1.reservedQuantity + q1,
        lastUpdated := now } := by
  have hstep1 : reserveLines userId eventId ev now s
      ({ ticketTypeId := t1, quantity := q1 } :: (mid ++
        { ticketTypeId := tb, quantity := qb } :: rest)) =
      reserveLines userId eventId ev now
        { s with
          inventory := updateKey (eventId, t1)
            (fun i => { i with
              availableQuantity := inv1.availableQuantity - q1,
              reservedQuantity := inv1.reservedQuantity + q1,
              lastUpdated := now }) s.inventory }
        (mid ++ { ticketTypeId := tb, quantity := qb } :: rest) := by
    simp only [reserveLines]
    simp only [hinv1]
    rw [if_neg h1]
  have hchain := reserveLines_append_ok userId eventId ev now mid _ s2 hmid
    ({ ticketTypeId := tb, quantity := qb } :: rest)
  have hstep3 : reserveLines userId eventId ev now s2
      ({ ticketTypeId := tb, quantity := qb } :: rest) =
      .stop { success := false, reservationId := none, expiresAt := none,
              waitlisted := true, waitlistId := some s2.nextId,
              error := some "Not enough tickets available" }
        { s2 with
          waitlist := (s2.nextId,
            { userId := userId, eventId := eventId, ticketTypeId := tb,
              quantity := qb, requestTime := now, notificationSent := false,
              notificationTime := none, expirationTime := none,
              status := .waiting }) :: s2.waitlist,
          nextId := s2.nextId + 1 } := by
    simp only [reserveLines]
    simp only [hinvB]
    rw [if_pos hb]
    rfl
  have hframe := reserveLines_ok_frame userId eventId ev now mid _ s2 hmid
  refine ⟨?_, hframe.1, hframe.2.1, ?_⟩
  · unfold processReservationTransaction
    simp only [hev]
    rw [List.cons_append]
    rw [hstep1, hchain, hstep3]
  · have hfr := reserveLines_ok_inv_frame userId eventId ev now mid _ s2 hmid t1 hmidT1
    rw [hfr]
    simp only []
    rw [lookupKey_updateKey_self, hinv1]
    rfl

/-- Concrete state for the C10 witness: two ticket types, type "a" with
5 available and type "b" with only 1 available. -/
def scenarioC10State : EngineState :=
  { events := [("e",
      { tickets := [{ name := "a", totalQuantity := 10 },
                    { name := "b", totalQuantity := 1 }] })],
    inventory := [(("e", "a"),
      { eventId := "e", ticketTypeId := "a", totalQuantity := 10,
        availableQuantity := 5, reservedQuantity := 3, soldQuantity := 2,
        lastUpdated := 0 }),
      (("e", "b"),
      { eventId := "e", ticketTypeId := "b", totalQuantity := 1,
        availableQuantity := 1, reservedQuantity := 0, soldQuantity := 0,
        lastUpdated := 0 })],
    reservations := [], waitlist := [], tickets := [], nextId := 7 }

/-- C10 witness: request [(a, 2), (b, 3)] — line a is satisfiable, line
b is not; the commit keeps a's decrement (5 → 3 available, 3 → 5
reserved), creates no Reservation, and waitlists only line b. -/
theorem reserve_multiline_commit_witness :
    processReservationTransaction scenarioC10State "alice" "e"
        [{ ticketTypeId := "a", quantity := 2 },
         { ticketTypeId := "b", quantity := 3 }] 100 100 =
      ({ success := false, reservationId := none, expiresAt := none,
         waitlisted := true, waitlistId := some 7,
         error := some "Not enough tickets available" },
       { events := [("e",
           { tickets := [{ name := "a", totalQuantity := 10 },
                         { name := "b", totalQuantity := 1 }] })],
         inventory := [(("e", "a"),
           { eventId := "e", ticketTypeId := "a", totalQuantity := 10,
             availableQuantity := 3, reservedQuantity := 5, soldQuantity := 2,
             lastUpdated := 100 }),
           (("e", "b"),
           { eventId := "e", ticketTypeId := "b", totalQuantity := 1,
             availableQuantity := 1, reservedQuantity := 0, soldQuantity := 0,
             lastUpdated := 0 })],
         reservations := [],
         waitlist := [(7,
           { userId := "alice", eventId := "e", ticketTypeId := "b",
             quantity := 3, requestTime := 100, notificationSent := false,
             notificationTime := none, expirationTime := none,
             status := .waiting })],
         tickets := [], nextId := 8 }) := by
  have h := reserve_multiline_commit scenarioC10State "alice" "e" "a" "b"
      2 3 100 100 [] []
      { tickets := [{ name := "a", totalQuantity := 10 },
                    { name := "b", totalQuantity := 1 }] }
      { eventId := "e", ticketTypeId := "a", totalQuantity := 10,
        availableQuantity := 5, reservedQuantity := 3, soldQuantity := 2,
        lastUpdated := 0 }
      { eventId := "e", ticketTypeId := "b", totalQuantity := 1,
        availableQuantity := 1, reservedQuantity := 0, soldQuantity := 0,
        lastUpdated := 0 }
      { events := [("e",
          { tickets := [{ name := "a", totalQuantity := 10 },
                        { name := "b", totalQuantity := 1 }] })],
        inventory := [(("e", "a"),
          { eventId := "e", ticketTypeId := "a", totalQuantity := 10,
            availableQuantity := 3, reservedQuantity := 5, soldQuantity := 2,
            lastUpdated := 100 }),
          (("e", "b"),
          { eventId := "e", ticketTypeId := "b", totalQuantity := 1,
            availableQuantity := 1, reservedQuantity := 0, soldQuantity := 0,
            lastUpdated := 0 })],
        reservations := [], waitlist := [], tickets := [], nextId := 7 }
      (by decide) (by decide) (by decide) (by rfl) (by decide) (by decide)
      (by decide)
  exact h.1.trans (by decide)

/-! ### C9 — synchronous request validation -/

/-- C9 counterexample: a request whose single ticket line has quantity 0
passes the synchronous validation of `requestTicketReservation` and the
processing task is enqueued, refuting the claim that a line with
quantity ≤ 0 fails with InvalidArgument before any task is enqueued. -/
theorem requestValidation_quantity_zero_accepted :
    requestTicketReservation "u1" "ev1" [{ ticketTypeId := "vip", quantity := 0 }] 5 =
      .ok ("u1", "ev1", [{ ticketTypeId := "vip", quantity := 0 }], 5) := by
  rfl

/-- C9 (amended): `requestTicketReservation` validates synchronously
exactly that the eventId is non-empty and the ticket line list is
non-empty; such requests fail with InvalidArgument and enqueue no task,
and every other request — including one with a line of quantity ≤ 0 —
passes validation and enqueues the processing task. -/
theorem requestValidation_spec (userId eventId : String) (tickets : List TicketLine)
    (timestamp : Int) :
    (eventId = "" ∨ tickets = [] →
      requestTicketReservation userId eventId tickets timestamp =
        .error { code := .invalidArgument, message := "missing-params" }) ∧
    (eventId ≠ "" → tickets ≠ [] →
      requestTicketReservation userId eventId tickets timestamp =
        .ok (userId, eventId, tickets, timestamp)) := by
  constructor
  · intro h
    simp [requestTicketReservation, h]
  · intro h1 h2
    simp [requestTicketReservation, h1, h2]

/-- C9 witness: the empty-eventId request is rejected with
InvalidArgument, and a request with a quantity-0 line is accepted. -/
theorem requestValidation_spec_witness :
    requestTicketReservation "u1" "" [{ ticketTypeId := "vip", quantity := 1 }] 5 =
      .error { code := .invalidArgument, message := "missing-params" } ∧
    requestTicketReservation "u1" "ev1" [{ ticketTypeId := "vip", quantity := 0 }] 5 =
      .ok ("u1", "ev1", [{ ticketTypeId := "vip", quantity := 0 }], 5) :=
  ⟨(requestValidation_spec "u1" "" [{ ticketTypeId := "vip", quantity := 1 }] 5).1
      (Or.inl rfl),
   (requestValidation_spec "u1" "ev1" [{ ticketTypeId := "vip", quantity := 0 }] 5).2
      (by decide) (by decide)⟩

/-! ### C3 — completeTicketPurchase precondition checks -/

/-- C3: `completeTicketPurchase` fails with NotFound when the reservation
is absent, with PermissionDenied when it belongs to another user, with
FailedPrecondition reporting the current status when not pending, with
FailedPrecondition "expired" when the logical deadline has passed (the
check is made in the transaction itself, independent of the deferred
expiry task), and succeeds only when all four preconditions hold. -/
theorem completePurchase_preconditions (s : EngineState) (userId : String)
    (reservationId : Nat) (now : Int) :
    (lookupKey reservationId s.reservations = none →
      completeTicketPurchase s userId reservationId now =
        .error { code := .notFound, message := "Reservation not found" }) ∧
    (∀ r, lookupKey reservationId s.reservations = some r → r.userId ≠ userId →
      completeTicketPurchase s userId reservationId now =
        .error { code := .permissionDenied,
                 message := "Reservation does not belong to this user" }) ∧
    (∀ r, lookupKey reservationId s.reservations = some r → r.userId = userId →
      r.status ≠ .pending →
      completeTicketPurchase s userId reservationId now =
        .error { code := .failedPrecondition,
                 message := "Reservation is " ++ r.status.toText }) ∧
    (∀ r, lookupKey reservationId s.reservations = some r → r.userId = userId →
      r.status = .pending → r.expirationTime < now →
      completeTicketPurchase s userId reservationId now =
        .error { code := .failedPrecondition, message := "Reservation has expired" }) ∧
    (∀ out, completeTicketPurchase s userId reservationId now = .ok out →
      ∃ r, lookupKey reservationId s.reservations = some r ∧ r.userId = userId ∧
        r.status = .pending ∧ now ≤ r.expirationTime) := by
  refine ⟨?_, ?_, ?_, ?_, ?_⟩
  · intro h
    simp [completeTicketPurchase, h]
  · intro r h hu
    simp [completeTicketPurchase, h, hu]
  · intro r h hu hst
    simp [completeTicketPurchase, h, hu, hst]
  · intro r h hu hst hexp
    simp [completeTicketPurchase, h, hu, hst, hexp]
  · intro out hok
    unfold completeTicketPurchase at hok
    rcases hres : lookupKey reservationId s.reservations with _ | r
    · rw [hres] at hok
      simp at hok
    · rw [hres] at hok
      refine ⟨r, rfl, ?_⟩
      by_cases hu : r.userId = userId
      · by_cases hst : r.status = ReservationStatus.pending
        · by_cases hexp : r.expirationTime < now
          · simp [hu, hst, hexp] at hok
          · exact ⟨hu, hst, by omega⟩
        · simp [hu, hst] at hok
      · simp [hu] at hok

/-- C3 witness: on a concrete state with an expired-by-deadline pending
reservation, `completeTicketPurchase` at a later time reports the
deadline failure. -/
theorem completePurchase_preconditions_witness :
    completeTicketPurchase
      { events := [], inventory := [],
        reservations := [(0,
          { userId := "alice", eventId := "e", ticketTypeId := "ga", quantity := 2,
            reservationTime := 0, expirationTime := 1000, status := .pending })],
        waitlist := [], tickets := [], nextId := 1 } "alice" 0 2000 =
      .error { code := .failedPrecondition, message := "Reservation has expired" } :=
  (completePurchase_preconditions
      { events := [], inventory := [],
        reservations := [(0,
          { userId := "alice", eventId := "e", ticketTypeId := "ga", quantity := 2,
            reservationTime := 0, expirationTime := 1000, status := .pending })],
        waitlist := [], tickets := [], nextId := 1 } "alice" 0 2000).2.2.2.1
    { userId := "alice", eventId := "e", ticketTypeId := "ga", quantity := 2,
      reservationTime := 0, expirationTime := 1000, status := .pending }
    (by decide) (by decide) (by decide) (by decide)

/-! ### C8 — completed reservation rejected with no writes -/

/-- C8: `completeTicketPurchase` on a reservation whose status is
completed returns FailedPrecondition reporting that status, and the
aborted transaction leaves the whole state (reservations, inventory,
tickets) unchanged. -/
theorem completePurchase_completed_no_writes (s : EngineState) (userId : String)
    (reservationId : Nat) (now : Int) (r : TicketReservation)
    (h : lookupKey reservationId s.reservations = some r)
    (hu : r.userId = userId) (hc : r.status = .completed) :
    completeTicketPurchase s userId reservationId now =
      .error { code := .failedPrecondition, message := "Reservation is completed" } ∧
    completePurchaseState s userId reservationId now = s := by
  have herr : completeTicketPurchase s userId reservationId now =
      .error { code := .failedPrecondition, message := "Reservation is completed" } := by
    simp [completeTicketPurchase, h, hu, hc, ReservationStatus.toText]
  exact ⟨herr, by simp [completePurchaseState, herr]⟩

/-- C8 witness: a concrete completed reservation is rejected with
FailedPrecondition "Reservation is completed" and the state is unchanged. -/
theorem completePurchase_completed_no_writes_witness :
    completeTicketPurchase
      { events := [], inventory := [],
        reservations := [(0,
          { userId := "alice", eventId := "e", ticketTypeId := "ga", quantity := 2,
            reservationTime := 0, expirationTime := 1000, status := .completed })],
        waitlist := [], tickets := [], nextId := 1 } "alice" 0 500 =
      .error { code := .failedPrecondition, message := "Reservation is completed" } ∧
    completePurchaseState
      { events := [], inventory := [],
        reservations := [(0,
          { userId := "alice", eventId := "e", ticketTypeId := "ga", quantity := 2,
            reservationTime := 0, expirationTime := 1000, status := .completed })],
        waitlist := [], tickets := [], nextId := 1 } "alice" 0 500 =
      { events := [], inventory := [],
        reservations := [(0,
          { userId := "alice", eventId := "e", ticketTypeId := "ga", quantity := 2,
            reservationTime := 0, expirationTime := 1000, status := .completed })],
        waitlist := [], tickets := [], nextId := 1 } :=
  completePurchase_completed_no_writes
    { events := [], inventory := [],
      reservations := [(0,
        { userId := "alice", eventId := "e", ticketTypeId := "ga", quantity := 2,
          reservationTime := 0, expirationTime := 1000, status := .completed })],
      waitlist := [], tickets := [], nextId := 1 } "alice" 0 500
    { userId := "alice", eventId := "e", ticketTypeId := "ga", quantity := 2,
      reservationTime := 0, expirationTime := 1000, status := .completed }
    (by decide) (by decide) (by decide)

end Livit
